import Mathlib

/-!
Verification of the btrfs-progs offline checker (`check`) and restore engine
against its natural-language specification.  Each section shallowly embeds the
C functions named in the claims and proves or refutes the claimed properties.

Machine integers (u64/u32) are modelled as `Nat`; wherever overflow or
truncated subtraction could diverge from C semantics, the theorems carry
explicit hypotheses ruling the divergent inputs out.
-/

namespace BtrfsCk

/-! ## C1: extent backrefs and `all_backpointers_checked`

From `struct extent_backref`, `struct tree_backref`, `struct data_backref`,
`struct extent_record` and `all_backpointers_checked` (cmds-check.c).
The C code tags a common header (`is_data`, `found_extent_tree`,
`full_backref`, `found_ref` bit) onto two variants; we embed the variants as
an inductive with the common fields duplicated into each. -/

structure tree_backref where
  found_extent_tree : Bool
  full_backref : Bool
  found_ref : Bool
  parent : Nat
  root : Nat
  deriving Repr, DecidableEq

structure data_backref where
  found_extent_tree : Bool
  full_backref : Bool
  parent : Nat
  root : Nat
  owner : Nat
  offset : Nat
  bytes : Nat
  num_refs : Nat
  found_ref : Nat
  deriving Repr, DecidableEq

inductive extent_backref where
  | tree (t : tree_backref)
  | data (d : data_backref)
  deriving Repr, DecidableEq

structure extent_record where
  backrefs : List extent_backref
  start : Nat
  max_size : Nat
  nr : Nat
  refs : Nat
  extent_item_refs : Nat
  generation : Nat
  content_checked : Bool
  owner_ref_checked : Bool
  is_root : Bool
  metadata : Bool
  deriving Repr, DecidableEq

/-- The loop body of `all_backpointers_checked` with `print_errs = 0`: walk
the backref list, short-circuiting with error 1 at the first failed check
(the C `goto out`), accumulating `found` (1 per tree backref, `found_ref`
per data backref), and finally comparing `found` against `refs`. -/
def abc_go (nr refs : Nat) : List extent_backref → Nat → Nat
  | [], found => if found ≠ refs then 1 else 0
  | b :: cur, found =>
    match b with
    | .tree t =>
      if !t.found_extent_tree then 1
      else if !t.found_ref then 1
      else abc_go nr refs cur (found + 1)
    | .data d =>
      if !d.found_extent_tree then 1
      else if d.found_ref ≠ d.num_refs then 1
      else if d.bytes ≠ nr then 1
      else abc_go nr refs cur (found + d.found_ref)

/-- `all_backpointers_checked(rec, 0)`: returns 0 on success, 1 on the first
failed backref check or on a global refcount mismatch. -/
def all_backpointers_checked (rec : extent_record) : Nat :=
  abc_go rec.nr rec.refs rec.backrefs 0

/-- A single backref passes its local checks: `found_extent_tree` set and
(for tree backrefs) `found_ref` set, and (for data backrefs)
`found_ref == num_refs` and `bytes == rec.nr`. -/
def backref_checked (nr : Nat) : extent_backref → Prop
  | .tree t => t.found_extent_tree = true ∧ t.found_ref = true
  | .data d => d.found_extent_tree = true ∧ d.found_ref = d.num_refs ∧ d.bytes = nr

instance (nr : Nat) (b : extent_backref) : Decidable (backref_checked nr b) := by
  cases b <;> simp [backref_checked] <;> infer_instance

/-- The contribution of one backref to the global `found` count. -/
def backref_count : extent_backref → Nat
  | .tree _ => 1
  | .data d => d.found_ref

lemma abc_go_eq_zero (nr refs : Nat) (l : List extent_backref) (found : Nat) :
    abc_go nr refs l found = 0 ↔
      (∀ b ∈ l, backref_checked nr b) ∧
        found + (l.map backref_count).sum = refs := by
  induction l generalizing found with
  | nil =>
    simp [abc_go]
  | cons b cur ih =>
    have hbad : ∀ h : ¬ backref_checked nr b,
        (1 : Nat) = 0 ↔
          (∀ x ∈ b :: cur, backref_checked nr x) ∧
            found + ((b :: cur).map backref_count).sum = refs := by
      intro h
      constructor
      · omega
      · rintro ⟨hall, -⟩
        exact absurd (hall b (by simp)) h
    cases b with
    | tree t =>
      by_cases hfet : t.found_extent_tree
      · by_cases hfr : t.found_ref
        · have hstep : abc_go nr refs (.tree t :: cur) found
              = abc_go nr refs cur (found + 1) := by
            simp [abc_go, hfet, hfr]
          rw [hstep, ih]
          simp only [List.mem_cons, List.map_cons, List.sum_cons]
          constructor
          · rintro ⟨h1, h2⟩
            refine ⟨?_, ?_⟩
            · rintro x (rfl | hx)
              · exact ⟨hfet, hfr⟩
              · exact h1 x hx
            · simp [backref_count]
              omega
          · rintro ⟨h1, h2⟩
            refine ⟨fun x hx => h1 x (Or.inr hx), ?_⟩
            simp [backref_count] at h2
            omega
        · have hstep : abc_go nr refs (.tree t :: cur) found = 1 := by
            simp [abc_go, hfet, hfr]
          rw [hstep]
          exact hbad (by simp [backref_checked, hfr])
      · have hstep : abc_go nr refs (.tree t :: cur) found = 1 := by
          simp [abc_go, hfet]
        rw [hstep]
        exact hbad (by simp [backref_checked, hfet])
    | data d =>
      by_cases hfet : d.found_extent_tree
      · by_cases hfr : d.found_ref = d.num_refs
        · by_cases hb : d.bytes = nr
          · have hstep : abc_go nr refs (.data d :: cur) found
                = abc_go nr refs cur (found + d.found_ref) := by
              simp [abc_go, hfet, hfr, hb]
            rw [hstep, ih]
            simp only [List.mem_cons, List.map_cons, List.sum_cons]
            constructor
            · rintro ⟨h1, h2⟩
              refine ⟨?_, ?_⟩
              · rintro x (rfl | hx)
                · exact ⟨hfet, hfr, hb⟩
                · exact h1 x hx
              · simp [backref_count]
                omega
            · rintro ⟨h1, h2⟩
              refine ⟨fun x hx => h1 x (Or.inr hx), ?_⟩
              simp [backref_count] at h2
              omega
          · have hstep : abc_go nr refs (.data d :: cur) found = 1 := by
              simp [abc_go, hfet, hfr, hb]
            rw [hstep]
            exact hbad (by simp [backref_checked, hb])
        · have hstep : abc_go nr refs (.data d :: cur) found = 1 := by
            simp [abc_go, hfet, hfr]
          rw [hstep]
          exact hbad (by simp [backref_checked, hfr])
      · have hstep : abc_go nr refs (.data d :: cur) found = 1 := by
          simp [abc_go, hfet]
        rw [hstep]
        exact hbad (by simp [backref_checked, hfet])

/-- C1: `all_backpointers_checked(rec, 0)` reports success (returns 0) iff
every backref in `rec.backrefs` has `found_extent_tree` set and (it is a data
backref or has `found_ref` set), every data backref additionally satisfies
`found_ref == num_refs` and `bytes == rec.nr`, and the total reference count
accumulated over the list (1 per tree backref, `found_ref` per data backref)
equals `rec.refs`. -/
theorem C1_all_backpointers_checked_iff (rec : extent_record) :
    all_backpointers_checked rec = 0 ↔
      (∀ b ∈ rec.backrefs, backref_checked rec.nr b) ∧
        (rec.backrefs.map backref_count).sum = rec.refs := by
  have h := abc_go_eq_zero rec.nr rec.refs rec.backrefs 0
  simpa [all_backpointers_checked] using h

/-! ## Keys and key comparison

From `struct btrfs_key` and `btrfs_comp_keys` (ctree.c).  Disk keys and cpu
keys carry the same three fields; the little-endian conversion
`btrfs_disk_key_to_cpu` is the identity in this embedding. -/

structure btrfs_key where
  objectid : Nat
  type : Nat
  offset : Nat
  deriving Repr, DecidableEq

/-- `btrfs_comp_keys`: compare two keys in a memcmp fashion
(objectid, then type, then offset). -/
def btrfs_comp_keys (k1 k2 : btrfs_key) : Int :=
  if k1.objectid > k2.objectid then 1
  else if k1.objectid < k2.objectid then -1
  else if k1.type > k2.type then 1
  else if k1.type < k2.type then -1
  else if k1.offset > k2.offset then 1
  else if k1.offset < k2.offset then -1
  else 0

/-- Lexicographic strict order on keys, the specification-side reading of
`btrfs_comp_keys < 0`. -/
def keyLt (a b : btrfs_key) : Prop :=
  a.objectid < b.objectid ∨
    (a.objectid = b.objectid ∧
      (a.type < b.type ∨ (a.type = b.type ∧ a.offset < b.offset)))

instance (a b : btrfs_key) : Decidable (keyLt a b) := by
  unfold keyLt
  infer_instance

lemma comp_keys_neg_iff (a b : btrfs_key) :
    btrfs_comp_keys a b < 0 ↔ keyLt a b := by
  unfold btrfs_comp_keys keyLt
  split_ifs <;> simp_all <;> omega

lemma comp_keys_zero_iff (a b : btrfs_key) :
    btrfs_comp_keys a b = 0 ↔ a = b := by
  obtain ⟨a1, a2, a3⟩ := a
  obtain ⟨b1, b2, b3⟩ := b
  unfold btrfs_comp_keys
  split_ifs <;> simp_all <;> omega

lemma comp_keys_pos_iff (a b : btrfs_key) :
    btrfs_comp_keys a b > 0 ↔ keyLt b a := by
  unfold btrfs_comp_keys keyLt
  split_ifs <;> simp_all <;> omega

lemma keyLt_trans {a b c : btrfs_key} (h1 : keyLt a b) (h2 : keyLt b c) :
    keyLt a c := by
  unfold keyLt at *
  omega

lemma keyLt_irrefl (a : btrfs_key) : ¬ keyLt a a := by
  unfold keyLt
  omega

lemma keyLt_asymm {a b : btrfs_key} (h : keyLt a b) : ¬ keyLt b a := by
  unfold keyLt at *
  omega

lemma keyLt_trichotomy (a b : btrfs_key) : keyLt a b ∨ a = b ∨ keyLt b a := by
  obtain ⟨a1, a2, a3⟩ := a
  obtain ⟨b1, b2, b3⟩ := b
  unfold keyLt
  simp only [btrfs_key.mk.injEq]
  omega

/-! ## C3: `should_cow_block` and `btrfs_cow_block`

From `should_cow_block` and `btrfs_cow_block` (ctree.c).  The buffer header
flags `BTRFS_HEADER_FLAG_WRITTEN` and `BTRFS_HEADER_FLAG_RELOC` are embedded
as two booleans; `__btrfs_cow_block` (allocation, copying, ref bookkeeping)
is abstracted as a parameter `cowFn` since only whether it is invoked is at
issue. -/

/-- `BTRFS_TREE_RELOC_OBJECTID` is `-8ULL`. -/
def BTRFS_TREE_RELOC_OBJECTID : Nat := 2 ^ 64 - 8

structure cow_buffer where
  start : Nat
  len : Nat
  generation : Nat
  flag_written : Bool
  flag_reloc : Bool
  deriving Repr, DecidableEq

/-- `should_cow_block(trans, root, buf)`: 0 when the buffer may be reused in
place, 1 when it must be copied. -/
def should_cow_block (trans_transid root_objectid : Nat) (buf : cow_buffer) : Nat :=
  if buf.generation = trans_transid ∧
      buf.flag_written = false ∧
      ¬ (root_objectid ≠ BTRFS_TREE_RELOC_OBJECTID ∧ buf.flag_reloc = true) then 0
  else 1

/-- `btrfs_cow_block`: when `should_cow_block` says no, hand back the
original buffer with result 0 and no copy; otherwise delegate to
`__btrfs_cow_block` (here `cowFn`).  The boolean records whether a
copy-on-write was performed. -/
def btrfs_cow_block (trans_transid root_objectid : Nat) (buf : cow_buffer)
    (cowFn : cow_buffer → Except Int cow_buffer) :
    Except Int (cow_buffer × Bool) :=
  if should_cow_block trans_transid root_objectid buf = 0 then
    Except.ok (buf, false)
  else
    (cowFn buf).map (fun c => (c, true))

/-- C3: a copy-on-write is performed iff the buffer's generation differs from
the current transaction id, or the buffer has the `WRITTEN` flag, or (the
owning root is not the reloc tree and the buffer has the `RELOC` flag); when
none of these hold, `btrfs_cow_block` returns the original buffer unchanged
with result 0. -/
theorem C3_cow_block_iff (trans_transid root_objectid : Nat) (buf : cow_buffer)
    (cowFn : cow_buffer → Except Int cow_buffer) :
    btrfs_cow_block trans_transid root_objectid buf cowFn =
      (if buf.generation ≠ trans_transid ∨ buf.flag_written = true ∨
          (root_objectid ≠ BTRFS_TREE_RELOC_OBJECTID ∧ buf.flag_reloc = true)
       then (cowFn buf).map (fun c => (c, true))
       else Except.ok (buf, false)) := by
  unfold btrfs_cow_block should_cow_block
  rcases Bool.eq_false_or_eq_true buf.flag_written with hw | hw <;>
    rcases Bool.eq_false_or_eq_true buf.flag_reloc with hr | hr <;>
    by_cases hg : buf.generation = trans_transid <;>
    by_cases ho : root_objectid = BTRFS_TREE_RELOC_OBJECTID <;>
    simp [hw, hr, hg, ho]

/-! ## C6: `btrfs_check_leaf`

From `btrfs_check_leaf`, `leaf_data_end`, `leaf_space_used` and
`btrfs_leaf_free_space` (ctree.c).  A leaf buffer is embedded as its header
level, its byte size `len`, and the item descriptor array
`(key, data offset, data size)`; `sizeof(struct btrfs_item)` is 25 bytes.
The `btrfs_add_corrupt_extent_record` side effect on the failure path does
not affect the return value and is omitted. -/

structure leaf_item where
  key : btrfs_key
  offset : Nat
  size : Nat
  deriving Repr, DecidableEq

structure leaf_buf where
  level : Nat
  len : Nat
  items : List leaf_item
  deriving Repr, DecidableEq

def dummy_item : leaf_item := ⟨⟨0, 0, 0⟩, 0, 0⟩

def sizeof_btrfs_item : Nat := 25

/-- `btrfs_item_end_nr`: offset of the byte past an item's data. -/
def item_end_nr (items : List leaf_item) (i : Nat) : Nat :=
  (items.getD i dummy_item).offset + (items.getD i dummy_item).size

/-- `leaf_space_used(l, 0, nritems)`. -/
def leaf_space_used (items : List leaf_item) : Int :=
  if items.length = 0 then 0
  else
    (item_end_nr items 0 : Int) - (items.getD (items.length - 1) dummy_item).offset
      + sizeof_btrfs_item * items.length

/-- `btrfs_leaf_free_space`. -/
def btrfs_leaf_free_space (leaf_data_size : Nat) (items : List leaf_item) : Int :=
  (leaf_data_size : Int) - leaf_space_used items

/-- The validation loop of `btrfs_check_leaf`:
`for (i = 0; nritems > 1 && i < nritems - 2; i++)` checking key order of
slots `i, i+1`, `item_offset(i) == item_end(i+1)`, and (at `i == 0`)
`item_end(0) == LEAF_DATA_SIZE`. -/
def check_leaf_loop (leaf_data_size : Nat) (items : List leaf_item) :
    Nat → Nat → Int
  | _, 0 => 0
  | i, fuel + 1 =>
    let nritems := items.length
    if 1 < nritems ∧ i < nritems - 2 then
      if btrfs_comp_keys (items.getD i dummy_item).key
          (items.getD (i + 1) dummy_item).key ≥ 0 then -5
      else if (items.getD i dummy_item).offset ≠ item_end_nr items (i + 1) then -5
      else if i = 0 ∧ item_end_nr items 0 ≠ leaf_data_size then -5
      else check_leaf_loop leaf_data_size items (i + 1) fuel
    else 0

lemma check_leaf_loop_fuel_irrel (leaf_data_size : Nat) (items : List leaf_item)
    (i f1 f2 : Nat) (h1 : items.length ≤ i + f1) (h2 : items.length ≤ i + f2) :
    check_leaf_loop leaf_data_size items i f1 =
      check_leaf_loop leaf_data_size items i f2 := by
  induction f1 generalizing i f2 with
  | zero =>
    cases f2 with
    | zero => rfl
    | succ f2 =>
      rw [check_leaf_loop, check_leaf_loop]
      rw [if_neg (by omega)]
  | succ f1 ih =>
    cases f2 with
    | zero =>
      rw [check_leaf_loop, check_leaf_loop]
      rw [if_neg (by omega)]
    | succ f2 =>
      rw [check_leaf_loop, check_leaf_loop]
      by_cases hg : 1 < items.length ∧ i < items.length - 2
      · rw [if_pos hg, if_pos hg]
        split_ifs <;> first | rfl | exact ih (i + 1) f2 (by omega) (by omega)
      · rw [if_neg hg, if_neg hg]

/-- `btrfs_check_leaf(root, parent_key, buf)`: 0 on acceptance, `-EIO` (-5)
on rejection.  `parent_key` models the `parent_key && parent_key->type`
guard: the check only fires for a present key with nonzero type. -/
def btrfs_check_leaf (leaf_data_size : Nat) (parent_key : Option btrfs_key)
    (buf : leaf_buf) : Int :=
  let nritems := buf.items.length
  if nritems * sizeof_btrfs_item > buf.len then -5
  else if buf.level ≠ 0 then -5
  else if btrfs_leaf_free_space leaf_data_size buf.items < 0 then -5
  else if nritems = 0 then 0
  else
    match parent_key with
    | some pk =>
      if pk.type ≠ 0 ∧ pk ≠ (buf.items.getD 0 dummy_item).key then -5
      else check_leaf_loop leaf_data_size buf.items 0 buf.items.length
    | none => check_leaf_loop leaf_data_size buf.items 0 buf.items.length

/-- Invariant I1 on a leaf: item keys strictly increasing, payloads
non-overlapping and exactly filling the data area (each item's data offset
equals the end of the next item's data, and item 0's data ends at
`LEAF_DATA_SIZE`). -/
def leaf_I1 (leaf_data_size : Nat) (items : List leaf_item) : Prop :=
  (∀ i < items.length - 1,
      keyLt (items.getD i dummy_item).key (items.getD (i + 1) dummy_item).key) ∧
  (∀ i < items.length - 1,
      (items.getD i dummy_item).offset = item_end_nr items (i + 1)) ∧
  (items.length ≠ 0 → item_end_nr items 0 = leaf_data_size)

instance (leaf_data_size : Nat) (items : List leaf_item) :
    Decidable (leaf_I1 leaf_data_size items) := by
  unfold leaf_I1
  infer_instance

/-- A two-item leaf with duplicate keys: item descriptors are otherwise
consistent (data packed against the end of a 4096-byte data area). -/
def c6_bad_leaf : leaf_buf :=
  { level := 0
    len := 4096
    items := [⟨⟨1, 1, 0⟩, 4086, 10⟩, ⟨⟨1, 1, 0⟩, 4076, 10⟩] }

/-- C6: the validation loop in `btrfs_check_leaf` runs only for
`i < nritems - 2` and so never checks the last adjacent pair of slots:
a two-item leaf whose keys are equal (violating invariant I1) is accepted
with return value 0. -/
theorem C6_check_leaf_accepts_I1_violation :
    btrfs_check_leaf 4096 none c6_bad_leaf = 0 ∧
      ¬ leaf_I1 4096 c6_bad_leaf.items := by
  decide

/-! ## C9: `check_block_group` / `check_block_groups`

From `check_block_group` and `check_block_groups` (cmds-check.c).  A mapping
tree entry is its `(ce.start, ce.size, type)` triple; the
`btrfs_search_slot` lookup of the `BLOCK_GROUP_ITEM` in the extent tree is
supplied as its integer result (`0` found, `> 0` absent, `< 0` I/O error),
and `btrfs_make_block_group` is recorded as an emitted effect.  The body of
`check_block_groups` starts with `/* this isn't quite working */ return 0;`,
so its loop over the mapping tree is unreachable. -/

structure map_lookup where
  start : Nat
  size : Nat
  chunk_type : Nat
  deriving Repr, DecidableEq

/-- `check_block_group`: result, block groups re-created via
`btrfs_make_block_group`, and the `reinit` flag. -/
def check_block_group (searchRet : Int) (map : map_lookup) (reinit : Bool) :
    Int × List map_lookup × Bool :=
  if searchRet ≤ 0 then (searchRet, [], reinit)
  else (0, [map], true)

/-- `check_block_groups`: the function body is an unconditional `return 0;`
placed before its loop over the mapping tree, so no entry is examined, no
block group is re-created and `reinit` is never set. -/
def check_block_groups (maps : List map_lookup) (searchRet : map_lookup → Int)
    (reinit : Bool) : Int × List map_lookup × Bool :=
  (0, [], reinit)

/-- A mapping-tree entry whose `BLOCK_GROUP_ITEM` search comes back `1`
(absent from the extent tree). -/
def c9_map : map_lookup := ⟨1048576, 1048576, 1⟩

def c9_search : map_lookup → Int := fun _ => 1

/-- C9 counterexample: a block group whose `BLOCK_GROUP_ITEM` is absent from
the extent tree (search result 1) is passed through `check_block_groups`,
yet nothing is re-created and the reinit flag stays clear — the claimed
iteration never happens because of the unconditional early `return 0`. -/
theorem C9_counterexample_dead_reinit_path :
    c9_search c9_map = 1 ∧
      check_block_groups [c9_map] c9_search false = (0, [], false) := by
  constructor
  · rfl
  · rfl

/-- C9 amended: `check_block_groups` returns 0 for every input without
touching any mapping-tree entry (the reinit path is dead code); the
unreachable per-group logic survives in `check_block_group`, which
re-creates the block group item and sets `reinit` exactly when the
`BLOCK_GROUP_ITEM` search reports the item absent (result `> 0`). -/
theorem C9_amended_check_block_groups_dead :
    (∀ (maps : List map_lookup) (searchRet : map_lookup → Int) (reinit : Bool),
        check_block_groups maps searchRet reinit = (0, [], reinit)) ∧
    (∀ (searchRet : Int) (map : map_lookup) (reinit : Bool),
        check_block_group searchRet map reinit =
          if searchRet ≤ 0 then (searchRet, [], reinit) else (0, [map], true)) := by
  exact ⟨fun _ _ _ => rfl, fun _ _ _ => rfl⟩

/-! ## C8: restore loop guards in `copy_file` and `search_dir`

From `ask_to_continue`, `copy_file` and `search_dir` (cmds-restore.c).
The loop bodies touch the disk and the host filesystem; what the claim is
about is the `loops` counter discipline, so the iteration bodies are
abstracted to their effect on the counter: `copy_file` never resets `loops`
while processing items, `search_dir` resets it on every entry it restores,
recurses into, or deliberately skips as already existing (`.progress`) and
leaves it alone otherwise (`.noProgress`).  User input is a character list
(`fgets(buf, 2, stdin)` reads one character at a time). -/

/-- `ask_to_continue`: 1 to abort on newline or `n`, 0 to continue on `y`,
re-prompt otherwise; `none` models `fgets` returning NULL. -/
def ask_to_continue : List Char → Option (Nat × List Char)
  | [] => none
  | c :: rest =>
    if c = '\n' ∨ c.toLower = 'n' then some (1, rest)
    else if c.toLower ≠ 'y' then ask_to_continue rest
    else some (0, rest)

inductive guard_result where
  | go (loops : Nat)
  | stopPrompted
  | stopSilent
  deriving Repr, DecidableEq

/-- The `copy_file` guard `if (loops++ >= 1024) { ret = ask_to_continue(file);
if (ret) break; loops = 0; }`. -/
def copy_file_guard (loops : Nat) (input : List Char) :
    Option (guard_result × List Char) :=
  if loops ≥ 1024 then
    match ask_to_continue input with
    | none => none
    | some (0, rest) => some (.go 0, rest)
    | some (_, rest) => some (.stopPrompted, rest)
  else some (.go (loops + 1), input)

/-- The `search_dir` guard `if (loops++ >= 1024) { printf(...stopping...);
break; }`: no prompt is issued. -/
def search_dir_guard (loops : Nat) : guard_result :=
  if loops ≥ 1024 then .stopSilent else .go (loops + 1)

inductive walk_outcome where
  | completed
  | stoppedPrompted
  | stoppedSilently
  deriving Repr, DecidableEq

/-- The `copy_file` item loop: `n` iterations remain until the loop would
exit through a key mismatch or the end of the tree, and no iteration resets
the counter. -/
def copy_file_loop : Nat → Nat → List Char → Option walk_outcome
  | n, loops, input =>
    match copy_file_guard loops input with
    | none => none
    | some (.stopPrompted, _) => some .stoppedPrompted
    | some (.stopSilent, _) => some .stoppedSilently
    | some (.go loops', rest) =>
      match n with
      | 0 => some .completed
      | n + 1 => copy_file_loop n loops' rest

inductive dir_step where
  | progress
  | noProgress
  deriving Repr, DecidableEq

/-- The `search_dir` entry loop over the remaining iteration outcomes. -/
def search_dir_loop : List dir_step → Nat → walk_outcome
  | [], loops =>
    match search_dir_guard loops with
    | .stopSilent => .stoppedSilently
    | .stopPrompted => .stoppedPrompted
    | .go _ => .completed
  | s :: rest, loops =>
    match search_dir_guard loops with
    | .stopSilent => .stoppedSilently
    | .stopPrompted => .stoppedPrompted
    | .go loops' =>
      match s with
      | .progress => search_dir_loop rest 0
      | .noProgress => search_dir_loop rest loops'

lemma search_dir_loop_silent_after (k : Nat) :
    ∀ (loops : Nat) (rest : List dir_step), 1024 - loops < k →
      search_dir_loop (List.replicate k .noProgress ++ rest) loops =
        .stoppedSilently := by
  induction k with
  | zero => omega
  | succ k ih =>
    intro loops rest hk
    by_cases hg : loops ≥ 1024
    · rw [List.replicate_succ, List.cons_append, search_dir_loop]
      unfold search_dir_guard
      rw [if_pos hg]
    · rw [List.replicate_succ, List.cons_append, search_dir_loop]
      unfold search_dir_guard
      rw [if_neg hg]
      exact ih (loops + 1) rest (by omega)

/-- C8 counterexample: `search_dir` makes 1025 iterations without externally
visible progress and stops without ever prompting the user — the claim says
the user is asked (y/N) before the directory is abandoned. -/
theorem C8_counterexample_search_dir_stops_silently :
    search_dir_loop (List.replicate 1025 .noProgress) 0 = .stoppedSilently := by
  have h := search_dir_loop_silent_after 1025 0 [] (by omega)
  rw [List.append_nil] at h
  exact h

lemma copy_file_loop_prompts (input : List Char) :
    ∀ n loops, 1024 - loops ≤ n → loops ≤ 1024 →
      copy_file_loop n loops ('n' :: input) = some .stoppedPrompted := by
  intro n
  induction n with
  | zero =>
    intro loops h1 h2
    have hl : loops = 1024 := by omega
    subst hl
    simp [copy_file_loop, copy_file_guard, ask_to_continue]
  | succ n ih =>
    intro loops h1 h2
    by_cases hg : loops ≥ 1024
    · have hl : loops = 1024 := by omega
      subst hl
      simp [copy_file_loop, copy_file_guard, ask_to_continue]
    · rw [copy_file_loop, copy_file_guard, if_neg hg]
      exact ih (loops + 1) (by omega) (by omega)

lemma search_dir_loop_ne_prompted :
    ∀ (steps : List dir_step) (loops : Nat),
      search_dir_loop steps loops ≠ .stoppedPrompted := by
  intro steps
  induction steps with
  | nil =>
    intro loops
    rw [search_dir_loop]
    unfold search_dir_guard
    split_ifs <;> simp
  | cons s rest ih =>
    intro loops
    rw [search_dir_loop]
    unfold search_dir_guard
    split_ifs with h
    · simp
    · cases s
      · exact ih 0
      · exact ih _

lemma copy_file_loop_not_silent :
    ∀ (n loops : Nat) (input : List Char) (r : walk_outcome),
      copy_file_loop n loops input = some r → r ≠ .stoppedSilently := by
  intro n
  induction n with
  | zero =>
    intro loops input r h
    rw [copy_file_loop] at h
    unfold copy_file_guard at h
    split_ifs at h with hg
    · cases hask : ask_to_continue input with
      | none => rw [hask] at h; cases h
      | some v =>
        obtain ⟨code, rest⟩ := v
        rw [hask] at h
        cases code with
        | zero => simp at h; subst h; simp
        | succ c => simp at h; subst h; simp
    · simp at h
      subst h
      simp
  | succ n ih =>
    intro loops input r h
    rw [copy_file_loop] at h
    unfold copy_file_guard at h
    split_ifs at h with hg
    · cases hask : ask_to_continue input with
      | none => rw [hask] at h; cases h
      | some v =>
        obtain ⟨code, rest⟩ := v
        rw [hask] at h
        cases code with
        | zero =>
          simp at h
          exact ih 0 rest r h
        | succ c => simp at h; subst h; simp
    · simp at h
      exact ih (loops + 1) input r h

/-- C8 amended: after 1024 guard-counted iterations `copy_file` prompts the
user (continuing with a reset counter only on `y`, stopping otherwise),
and it never stops silently; `search_dir` never prompts: after 1024
iterations without progress it stops the directory unconditionally. -/
theorem C8_amended_loop_guards :
    (∀ (input : List Char) (n : Nat), 1024 ≤ n →
        copy_file_loop n 0 ('n' :: input) = some .stoppedPrompted) ∧
    (∀ (n loops : Nat) (input : List Char) (r : walk_outcome),
        copy_file_loop n loops input = some r → r ≠ .stoppedSilently) ∧
    (∀ (steps : List dir_step) (loops : Nat),
        search_dir_loop steps loops ≠ .stoppedPrompted) ∧
    (∀ rest : List dir_step,
        search_dir_loop (List.replicate 1025 .noProgress ++ rest) 0 =
          .stoppedSilently) := by
  refine ⟨?_, copy_file_loop_not_silent, search_dir_loop_ne_prompted, ?_⟩
  · intro input n hn
    exact copy_file_loop_prompts input n 0 (by omega) (by omega)
  · intro rest
    exact search_dir_loop_silent_after 1025 0 rest (by omega)

/-- C8 amended witness: at 2048 pending iterations with `n` queued on stdin,
`copy_file` stops through the prompt. -/
theorem C8_amended_loop_guards_witness :
    copy_file_loop 2048 0 ['n'] = some .stoppedPrompted :=
  C8_amended_loop_guards.1 [] 2048 (by omega)

/-! ## C4/C5: inode records, `maybe_free_inode_rec`, `merge_inode_recs`

From `struct inode_backref`, `struct inode_record`, `imode_to_type`,
`can_free_inode_rec`, `maybe_free_inode_rec`, `get_inode_backref`,
`add_inode_backref` and `merge_inode_recs` (cmds-check.c).  The cache-tree
plumbing is represented by the record itself: `add_inode_backref`'s
`get_inode_rec(inode_cache, ino, 1)` retrieves exactly the record being
merged into (refcount 1), so the embedding passes that record directly.
Error bitmasks are the numeric values of the `REF_ERR_*` / `I_ERR_*`
defines; key-type constants are the on-disk `BTRFS_*_KEY` values from
ctree.h.  `BUG_ON` sites are modelled as `none`. -/

def u64max : Nat := 2 ^ 64 - 1

def BTRFS_INODE_REF_KEY : Nat := 12

def BTRFS_INODE_EXTREF_KEY : Nat := 13

def BTRFS_DIR_ITEM_KEY : Nat := 84

def BTRFS_DIR_INDEX_KEY : Nat := 96

structure inode_backref where
  found_dir_item : Bool
  found_dir_index : Bool
  found_inode_ref : Bool
  filetype : Nat
  errors : Nat
  ref_type : Nat
  dir : Nat
  index : Nat
  namelen : Nat
  name : String
  deriving Repr, DecidableEq

structure inode_record where
  backrefs : List inode_backref
  checked : Bool
  merging : Bool
  found_inode_item : Bool
  found_dir_item : Bool
  found_file_extent : Bool
  found_csum_item : Bool
  some_csum_missing : Bool
  nodatasum : Bool
  errors : Nat
  ino : Nat
  nlink : Nat
  imode : Nat
  isize : Nat
  nbytes : Nat
  found_link : Nat
  found_size : Nat
  extent_start : Nat
  extent_end : Nat
  first_extent_gap : Nat
  refs : Nat
  deriving Repr, DecidableEq

/-- `imode_to_type`: the `btrfs_type_by_mode` table indexed by
`(imode & S_IFMT) >> 12` (REG→1, DIR→2, CHR→3, BLK→4, FIFO→5, SOCK→6,
LNK→7, others 0). -/
def imode_to_type (imode : Nat) : Nat :=
  match (imode &&& 0xF000) >>> 12 with
  | 8 => 1
  | 4 => 2
  | 2 => 3
  | 6 => 4
  | 1 => 5
  | 12 => 6
  | 10 => 7
  | _ => 0

def S_ISDIR (m : Nat) : Bool := (m &&& 0xF000) == 0x4000

def S_ISREG (m : Nat) : Bool := (m &&& 0xF000) == 0x8000

def S_ISLNK (m : Nat) : Bool := (m &&& 0xF000) == 0xA000

/-- `can_free_inode_rec`: no errors, checked, inode item seen, link count
matched, and no backrefs left. -/
def can_free_inode_rec (rec : inode_record) : Bool :=
  rec.errors == 0 && rec.checked && rec.found_inode_item &&
    rec.nlink == rec.found_link && rec.backrefs.isEmpty

/-- The backref-pruning pass at the top of `maybe_free_inode_rec`: a backref
with both dir item and dir index gets a `REF_ERR_FILETYPE_UNMATCH` (128)
check against the inode's mode, and is dropped once it is error-free and
the inode ref was seen as well. -/
def maybe_free_prune_backref (filetype : Nat) (b : inode_backref) :
    Option inode_backref :=
  if b.found_dir_item && b.found_dir_index then
    let b1 := if b.filetype ≠ filetype then { b with errors := b.errors ||| 128 } else b
    if b1.errors = 0 ∧ b1.found_inode_ref = true then none
    else some b1
  else some b

def mfi_prune (rec : inode_record) : inode_record :=
  { rec with backrefs :=
      rec.backrefs.filterMap (maybe_free_prune_backref (imode_to_type rec.imode)) }

/-- The mode-dependent error derivation of `maybe_free_inode_rec`:
`I_ERR_DIR_ISIZE_WRONG` (512) / `I_ERR_ODD_FILE_EXTENT` (32) for
directories; `I_ERR_ODD_DIR_ITEM` (16), `I_ERR_FILE_NBYTES_WRONG` (1024),
the `first_extent_gap` reset and `I_ERR_FILE_EXTENT_DISCOUNT` (256) for
regular files and symlinks. -/
def mfi_type_errors (rec : inode_record) : inode_record :=
  if S_ISDIR rec.imode then
    let e1 := if rec.found_size ≠ rec.isize then rec.errors ||| 512 else rec.errors
    let e2 := if rec.found_file_extent then e1 ||| 32 else e1
    { rec with errors := e2 }
  else if S_ISREG rec.imode || S_ISLNK rec.imode then
    let e1 := if rec.found_dir_item then rec.errors ||| 16 else rec.errors
    let e2 := if rec.found_size ≠ rec.nbytes then e1 ||| 1024 else e1
    let gap := if rec.extent_start = u64max ∨ rec.extent_start > 0 then 0
               else rec.first_extent_gap
    let e3 := if rec.nlink > 0 ∧ (rec.extent_end < rec.isize ∨ gap < rec.isize)
              then e2 ||| 256 else e2
    { rec with errors := e3, first_extent_gap := gap }
  else rec

/-- The checksum error derivation of `maybe_free_inode_rec`:
`I_ERR_ODD_CSUM_ITEM` (2048) and `I_ERR_SOME_CSUM_MISSING` (4096). -/
def mfi_csum_errors (rec : inode_record) : inode_record :=
  if S_ISREG rec.imode || S_ISLNK rec.imode then
    let e1 := if rec.found_csum_item && rec.nodatasum then rec.errors ||| 2048
              else rec.errors
    let e2 := if rec.some_csum_missing && !rec.nodatasum then e1 ||| 4096 else e1
    { rec with errors := e2 }
  else rec

/-- `maybe_free_inode_rec`: returns the record after its adjustments plus
whether it was removed from the cache and freed; `none` models the
`BUG_ON(rec->refs != 1)`. -/
def maybe_free_inode_rec (rec : inode_record) : Option (inode_record × Bool) :=
  if rec.found_inode_item = false then some (rec, false)
  else if (mfi_prune rec).checked = false ∨ (mfi_prune rec).merging = true then
    some (mfi_prune rec, false)
  else if (mfi_csum_errors (mfi_type_errors (mfi_prune rec))).refs ≠ 1 then none
  else
    some (mfi_csum_errors (mfi_type_errors (mfi_prune rec)),
      can_free_inode_rec (mfi_csum_errors (mfi_type_errors (mfi_prune rec))))

def empty_inode_backref (dir namelen : Nat) (name : String) : inode_backref :=
  { found_dir_item := false, found_dir_index := false, found_inode_ref := false
    filetype := 0, errors := 0, ref_type := 0, dir := dir, index := 0
    namelen := namelen, name := name }

/-- `get_inode_backref` followed by an in-place update `f` of the found (or
freshly appended) backref. -/
def get_inode_backref_upsert (dir namelen : Nat) (name : String)
    (f : inode_backref → inode_backref) :
    List inode_backref → List inode_backref
  | [] => [f (empty_inode_backref dir namelen name)]
  | b :: rest =>
    if b.dir = dir ∧ b.namelen = namelen ∧ b.name = name then f b :: rest
    else b :: get_inode_backref_upsert dir namelen name f rest

/-- `if (errors) backref->errors |= errors;` -/
def add_errors_init (errors : Nat) (b : inode_backref) : inode_backref :=
  if errors ≠ 0 then { b with errors := b.errors ||| errors } else b

/-- The `BTRFS_DIR_INDEX_KEY` branch of `add_inode_backref`
(`REF_ERR_DUP_DIR_INDEX` 16, `REF_ERR_INDEX_UNMATCH` 64,
`REF_ERR_FILETYPE_UNMATCH` 128). -/
def add_dir_index_upd (index filetype : Nat) (b : inode_backref) : inode_backref :=
  let e1 := if b.found_dir_index then b.errors ||| 16 else b.errors
  let e2 := if b.found_inode_ref = true ∧ b.index ≠ index then e1 ||| 64 else e1
  let e3 := if b.found_dir_item = true ∧ b.filetype ≠ filetype then e2 ||| 128 else e2
  { b with errors := e3, index := index, filetype := filetype, found_dir_index := true }

/-- The `BTRFS_DIR_ITEM_KEY` branch (`REF_ERR_DUP_DIR_ITEM` 8,
`REF_ERR_FILETYPE_UNMATCH` 128); the `rec->found_link++` lives in
`add_inode_backref` itself. -/
def add_dir_item_upd (filetype : Nat) (b : inode_backref) : inode_backref :=
  let e1 := if b.found_dir_item then b.errors ||| 8 else b.errors
  let e2 := if b.found_dir_index = true ∧ b.filetype ≠ filetype then e1 ||| 128 else e1
  { b with errors := e2, filetype := filetype, found_dir_item := true }

/-- The `BTRFS_INODE_REF_KEY`/`BTRFS_INODE_EXTREF_KEY` branch
(`REF_ERR_DUP_INODE_REF` 32, `REF_ERR_INDEX_UNMATCH` 64). -/
def add_inode_ref_upd (itemtype index : Nat) (b : inode_backref) : inode_backref :=
  let e1 := if b.found_inode_ref then b.errors ||| 32 else b.errors
  let e2 := if b.found_dir_index = true ∧ b.index ≠ index then e1 ||| 64 else e1
  { b with errors := e2, ref_type := itemtype, index := index, found_inode_ref := true }

/-- `add_inode_backref(inode_cache, ino, dir, index, name, namelen,
filetype, itemtype, errors)` acting on the record for `ino`; ends with
`maybe_free_inode_rec`; `none` models the `BUG_ON(1)` on an unknown item
type. -/
def add_inode_backref (rec : inode_record) (dir index : Nat) (name : String)
    (namelen filetype itemtype errors : Nat) : Option (inode_record × Bool) :=
  if itemtype = BTRFS_DIR_INDEX_KEY then
    let bs := get_inode_backref_upsert dir namelen name
      (fun b => add_dir_index_upd index filetype (add_errors_init errors b))
      rec.backrefs
    maybe_free_inode_rec { rec with backrefs := bs }
  else if itemtype = BTRFS_DIR_ITEM_KEY then
    let bs := get_inode_backref_upsert dir namelen name
      (fun b => add_dir_item_upd filetype (add_errors_init errors b))
      rec.backrefs
    maybe_free_inode_rec { rec with found_link := rec.found_link + 1, backrefs := bs }
  else if itemtype = BTRFS_INODE_REF_KEY ∨ itemtype = BTRFS_INODE_EXTREF_KEY then
    let bs := get_inode_backref_upsert dir namelen name
      (fun b => add_inode_ref_upd itemtype index (add_errors_init errors b))
      rec.backrefs
    maybe_free_inode_rec { rec with backrefs := bs }
  else none

/-- An `add_inode_backref` call made from inside `merge_inode_recs`: the
destination is mid-merge, so freeing it would be a use-after-free; that
(impossible) case maps to `none`. -/
def add_during_merge (res : Option (inode_record × Bool)) : Option inode_record :=
  match res with
  | some (r, false) => some r
  | _ => none

/-- The body of the backref loop in `merge_inode_recs`: re-add the source
backref's dir-index, dir-item and inode-ref facets to the destination. -/
def merge_one_backref (dst : inode_record) (b : inode_backref) :
    Option inode_record := do
  let d1 ←
    if b.found_dir_index then
      add_during_merge (add_inode_backref dst b.dir b.index b.name b.namelen
        b.filetype BTRFS_DIR_INDEX_KEY b.errors)
    else some dst
  let d2 ←
    if b.found_dir_item then
      add_during_merge (add_inode_backref d1 b.dir 0 b.name b.namelen
        b.filetype BTRFS_DIR_ITEM_KEY b.errors)
    else some d1
  if b.found_inode_ref then
    add_during_merge (add_inode_backref d2 b.dir b.index b.name b.namelen
      0 b.ref_type b.errors)
  else some d2

def merge_backrefs (dst : inode_record) : List inode_backref → Option inode_record
  | [] => some dst
  | b :: rest =>
    match merge_one_backref dst b with
    | none => none
    | some d => merge_backrefs d rest

/-- `dir_count` as accumulated by the loop in `merge_inode_recs`. -/
def dir_count (bs : List inode_backref) : Nat :=
  (bs.filter (fun b => b.found_dir_item)).length

/-- The flag and `first_extent_gap` merges of `merge_inode_recs`. -/
def merge_flags (src d : inode_record) : inode_record :=
  { d with
    found_dir_item := d.found_dir_item || src.found_dir_item
    found_file_extent := d.found_file_extent || src.found_file_extent
    found_csum_item := d.found_csum_item || src.found_csum_item
    some_csum_missing := d.some_csum_missing || src.some_csum_missing
    first_extent_gap := if d.first_extent_gap > src.first_extent_gap
                        then src.first_extent_gap else d.first_extent_gap }

/-- `dst->found_link += src->found_link - dir_count; dst->found_size +=
src->found_size;` -/
def merge_counts (src : inode_record) (dc : Nat) (d : inode_record) : inode_record :=
  { d with found_link := d.found_link + (src.found_link - dc)
           found_size := d.found_size + src.found_size }

/-- The overlap/gap step of the extent-span merge:
`I_ERR_FILE_EXTENT_OVERLAP` (128) when the destination's high end runs past
the source's low end, else a `first_extent_gap` update on a true gap. -/
def merge_span_overlap (src d : inode_record) : inode_record :=
  if d.extent_end > src.extent_start then { d with errors := d.errors ||| 128 }
  else if d.extent_end < src.extent_start ∧ d.extent_end < d.first_extent_gap then
    { d with first_extent_gap := d.extent_end }
  else d

/-- `if (dst->extent_end < src->extent_end) dst->extent_end = src->extent_end;` -/
def merge_span_grow (src d : inode_record) : inode_record :=
  if d.extent_end < src.extent_end then { d with extent_end := src.extent_end }
  else d

/-- The extent-span merge of `merge_inode_recs`: copy the span when the
destination has none, otherwise flag an overlap or record a gap, then
extend the high end. -/
def merge_span (src d : inode_record) : inode_record :=
  if src.extent_start ≠ u64max then
    if d.extent_start = u64max then
      { d with extent_start := src.extent_start, extent_end := src.extent_end }
    else merge_span_grow src (merge_span_overlap src d)
  else d

def merge_errors (src d : inode_record) : inode_record :=
  { d with errors := d.errors ||| src.errors }

/-- The inode-item merge of `merge_inode_recs`: copy the item when only the
source has one, flag `I_ERR_DUP_INODE_ITEM` (4) when both do. -/
def merge_item (src d : inode_record) : inode_record :=
  if src.found_inode_item then
    if d.found_inode_item = false then
      { d with nlink := src.nlink, isize := src.isize, nbytes := src.nbytes,
               imode := src.imode, nodatasum := src.nodatasum,
               found_inode_item := true }
    else { d with errors := d.errors ||| 4 }
  else d

/-- The scalar tail of `merge_inode_recs` after the backref loop: flag
merges, count sums, extent-span merge, error accumulation and inode-item
copy, in the order of the C source. -/
def merge_scalar_core (src d : inode_record) (dc : Nat) : inode_record :=
  merge_item src (merge_errors src (merge_span src
    (merge_counts src dc (merge_flags src d))))

/-- `merge_inode_recs(src, dst, dst_cache)`: merge `src` into `dst`;
`none` models `BUG_ON(src->found_link < dir_count)` and the impossible
mid-merge free. -/
def merge_inode_recs (src dst : inode_record) : Option inode_record :=
  match merge_backrefs { dst with merging := true } src.backrefs with
  | none => none
  | some d1 =>
    if src.found_link < dir_count src.backrefs then none
    else
      some { merge_scalar_core src d1 (dir_count src.backrefs)
             with merging := false }

/-- A lazily created but never completed inode record: no inode item was
seen, yet it is checked, error-free, with matching link counts (0 = 0) and
no backrefs. -/
def c5_rec : inode_record :=
  { backrefs := [], checked := true, merging := false, found_inode_item := false
    found_dir_item := false, found_file_extent := false, found_csum_item := false
    some_csum_missing := false, nodatasum := false, errors := 0, ino := 256
    nlink := 0, imode := 0, isize := 0, nbytes := 0, found_link := 0
    found_size := 0, extent_start := u64max, extent_end := 0
    first_extent_gap := u64max, refs := 1 }

/-- C5 counterexample: `c5_rec` satisfies all four stated conditions —
`found_link == nlink`, empty backref list, `errors == 0`, checked — yet
`maybe_free_inode_rec` does not free it (`can_free_inode_rec` also rejects
it), because the code additionally requires `found_inode_item`. -/
theorem C5_counterexample_four_conditions_not_sufficient :
    (c5_rec.found_link = c5_rec.nlink ∧ c5_rec.backrefs = [] ∧
        c5_rec.errors = 0 ∧ c5_rec.checked = true) ∧
      maybe_free_inode_rec c5_rec = some (c5_rec, false) ∧
      can_free_inode_rec c5_rec = false := by
  refine ⟨⟨rfl, rfl, rfl, rfl⟩, ?_, rfl⟩
  rfl

lemma mfi_prune_fields (rec : inode_record) :
    (mfi_prune rec).checked = rec.checked ∧
      (mfi_prune rec).merging = rec.merging ∧
      (mfi_prune rec).found_inode_item = rec.found_inode_item := by
  simp [mfi_prune]

lemma mfi_type_errors_fields (rec : inode_record) :
    (mfi_type_errors rec).checked = rec.checked ∧
      (mfi_type_errors rec).merging = rec.merging ∧
      (mfi_type_errors rec).found_inode_item = rec.found_inode_item := by
  unfold mfi_type_errors
  split_ifs <;> simp

lemma mfi_csum_errors_fields (rec : inode_record) :
    (mfi_csum_errors rec).checked = rec.checked ∧
      (mfi_csum_errors rec).merging = rec.merging ∧
      (mfi_csum_errors rec).found_inode_item = rec.found_inode_item := by
  unfold mfi_csum_errors
  split_ifs <;> simp

/-- C5 amended: `maybe_free_inode_rec` removes and frees the record exactly
when — on the record as adjusted by its own backref pruning and error
derivation — the four stated conditions hold *and additionally* the inode
item has been found and the record is not mid-merge. -/
theorem C5_amended_free_iff (rec rec' : inode_record) (freed : Bool)
    (h : maybe_free_inode_rec rec = some (rec', freed)) :
    freed = true ↔
      (rec'.found_inode_item = true ∧ rec'.merging = false ∧
        rec'.found_link = rec'.nlink ∧ rec'.backrefs = [] ∧
        rec'.errors = 0 ∧ rec'.checked = true) := by
  unfold maybe_free_inode_rec at h
  split_ifs at h with h1 h2 h3
  · -- no inode item: not freed
    rw [Option.some.injEq, Prod.mk.injEq] at h
    obtain ⟨hr, hf⟩ := h
    subst hr
    simp [← hf, h1]
  · -- not checked or mid-merge: not freed
    rw [Option.some.injEq, Prod.mk.injEq] at h
    obtain ⟨hr, hf⟩ := h
    subst hr
    obtain ⟨hc, hm, _⟩ := mfi_prune_fields rec
    constructor
    · intro hfr
      rw [hfr] at hf
      cases hf
    · rintro ⟨-, hmerge, -, -, -, hchecked⟩
      rcases h2 with h2 | h2
      · rw [h2] at hchecked
        cases hchecked
      · rw [h2] at hmerge
        cases hmerge
  · -- main branch: freed ↔ can_free_inode_rec
    rw [Option.some.injEq, Prod.mk.injEq] at h
    obtain ⟨hr, hf⟩ := h
    obtain ⟨hc1, hm1, hi1⟩ := mfi_prune_fields rec
    obtain ⟨hc2, hm2, hi2⟩ := mfi_type_errors_fields (mfi_prune rec)
    obtain ⟨hc3, hm3, hi3⟩ := mfi_csum_errors_fields (mfi_type_errors (mfi_prune rec))
    push_neg at h2
    obtain ⟨hchecked, hmerging⟩ := h2
    have hch : rec'.checked = true := by
      rw [← hr, hc3, hc2]
      simpa using hchecked
    have hmg : rec'.merging = false := by
      rw [← hr, hm3, hm2]
      simpa using hmerging
    have hfi : rec'.found_inode_item = true := by
      rw [← hr, hi3, hi2, hi1]
      simpa using h1
    rw [← hf, hr]
    unfold can_free_inode_rec
    simp only [Bool.and_eq_true, beq_iff_eq, List.isEmpty_iff]
    constructor
    · rintro ⟨⟨⟨⟨he, -⟩, -⟩, hn⟩, hb⟩
      exact ⟨hfi, hmg, hn.symm, hb, he, hch⟩
    · rintro ⟨-, -, hn, hb, he, -⟩
      exact ⟨⟨⟨⟨he, hch⟩, hfi⟩, hn.symm⟩, hb⟩

/-- A completed, fully consistent inode record: everything found and
matching, so `maybe_free_inode_rec` frees it. -/
def c5_freeable : inode_record :=
  { backrefs := [], checked := true, merging := false, found_inode_item := true
    found_dir_item := false, found_file_extent := false, found_csum_item := false
    some_csum_missing := false, nodatasum := false, errors := 0, ino := 257
    nlink := 1, imode := 0x8000, isize := 0, nbytes := 0, found_link := 1
    found_size := 0, extent_start := u64max, extent_end := 0
    first_extent_gap := u64max, refs := 1 }

/-- C5 amended witness: instantiating the amended theorem on a concrete
record that is freed. -/
theorem C5_amended_free_iff_witness :
    true = true ↔
      ((mfi_csum_errors (mfi_type_errors (mfi_prune c5_freeable))).found_inode_item = true ∧
        (mfi_csum_errors (mfi_type_errors (mfi_prune c5_freeable))).merging = false ∧
        (mfi_csum_errors (mfi_type_errors (mfi_prune c5_freeable))).found_link =
          (mfi_csum_errors (mfi_type_errors (mfi_prune c5_freeable))).nlink ∧
        (mfi_csum_errors (mfi_type_errors (mfi_prune c5_freeable))).backrefs = [] ∧
        (mfi_csum_errors (mfi_type_errors (mfi_prune c5_freeable))).errors = 0 ∧
        (mfi_csum_errors (mfi_type_errors (mfi_prune c5_freeable))).checked = true) :=
  C5_amended_free_iff c5_freeable
    (mfi_csum_errors (mfi_type_errors (mfi_prune c5_freeable))) true (by rfl)

/-- A record base for the C4 counterexample: a bare inode record as
`get_inode_rec` creates it. -/
def c4_base : inode_record :=
  { backrefs := [], checked := false, merging := false, found_inode_item := false
    found_dir_item := false, found_file_extent := false, found_csum_item := false
    some_csum_missing := false, nodatasum := false, errors := 0, ino := 300
    nlink := 0, imode := 0, isize := 0, nbytes := 0, found_link := 0
    found_size := 0, extent_start := u64max, extent_end := 0
    first_extent_gap := u64max, refs := 1 }

/-- A record that observed the file extent span `[0, 10)`. -/
def c4_recA : inode_record := { c4_base with extent_start := 0, extent_end := 10 }

/-- A record that observed the file extent span `[20, 30)`. -/
def c4_recB : inode_record := { c4_base with extent_start := 20, extent_end := 30 }

/-- C4 counterexample: built from a partition of the same source items (one
extent at `[0,10)`, one at `[20,30)`), merging B into A records a gap and no
error, while merging A into B flags `I_ERR_FILE_EXTENT_OVERLAP` (128) and
keeps `extent_start = 20` — the merge is not order-independent. -/
theorem C4_counterexample_merge_not_commutative :
    merge_inode_recs c4_recB c4_recA ≠ merge_inode_recs c4_recA c4_recB ∧
      (merge_inode_recs c4_recB c4_recA).map (fun r => r.errors) = some 0 ∧
      (merge_inode_recs c4_recA c4_recB).map (fun r => r.errors) = some 128 ∧
      (merge_inode_recs c4_recB c4_recA).map (fun r => r.extent_start) = some 0 ∧
      (merge_inode_recs c4_recA c4_recB).map (fun r => r.extent_start) = some 20 := by
  refine ⟨?_, rfl, rfl, rfl, rfl⟩
  intro h
  have h2 := congrArg (Option.map (fun r => r.errors)) h
  simp only [show (merge_inode_recs c4_recB c4_recA).map (fun r => r.errors)
      = some 0 from rfl,
    show (merge_inode_recs c4_recA c4_recB).map (fun r => r.errors)
      = some 128 from rfl] at h2
  cases h2

lemma maybe_free_merging (r : inode_record) (hm : r.merging = true) :
    ∃ bs, maybe_free_inode_rec r = some ({ r with backrefs := bs }, false) := by
  unfold maybe_free_inode_rec
  by_cases hfi : r.found_inode_item = false
  · rw [if_pos hfi]
    exact ⟨r.backrefs, rfl⟩
  · rw [if_neg hfi, if_pos (Or.inr (by rw [(mfi_prune_fields r).2.1]; exact hm))]
    exact ⟨(mfi_prune r).backrefs, rfl⟩

lemma add_dir_index_merging (rec : inode_record) (hm : rec.merging = true)
    (dir index namelen filetype errs : Nat) (name : String) :
    ∃ bs, add_inode_backref rec dir index name namelen filetype
        BTRFS_DIR_INDEX_KEY errs = some ({ rec with backrefs := bs }, false) := by
  obtain ⟨bs, hb⟩ := maybe_free_merging
    { rec with backrefs := (get_inode_backref_upsert dir namelen name
        (fun b => add_dir_index_upd index filetype (add_errors_init errs b))
        rec.backrefs) } (by exact hm)
  exact ⟨bs, hb⟩

lemma add_dir_item_merging (rec : inode_record) (hm : rec.merging = true)
    (dir index namelen filetype errs : Nat) (name : String) :
    ∃ bs, add_inode_backref rec dir index name namelen filetype
        BTRFS_DIR_ITEM_KEY errs =
      some ({ rec with backrefs := bs, found_link := rec.found_link + 1 }, false) := by
  obtain ⟨bs, hb⟩ := maybe_free_merging
    { rec with found_link := rec.found_link + 1
               backrefs := (get_inode_backref_upsert dir namelen name
                 (fun b => add_dir_item_upd filetype (add_errors_init errs b))
                 rec.backrefs) } (by exact hm)
  exact ⟨bs, hb⟩

lemma add_inode_ref_merging (rec : inode_record) (hm : rec.merging = true)
    (dir index namelen filetype errs itemtype : Nat) (name : String)
    (hv : itemtype = BTRFS_INODE_REF_KEY ∨ itemtype = BTRFS_INODE_EXTREF_KEY) :
    ∃ bs, add_inode_backref rec dir index name namelen filetype itemtype errs =
      some ({ rec with backrefs := bs }, false) := by
  obtain ⟨bs, hb⟩ := maybe_free_merging
    { rec with backrefs := (get_inode_backref_upsert dir namelen name
        (fun b => add_inode_ref_upd itemtype index (add_errors_init errs b))
        rec.backrefs) } (by exact hm)
  refine ⟨bs, ?_⟩
  rcases hv with hv | hv <;> subst hv
  · exact hb
  · exact hb

lemma merge_one_backref_spec (dst : inode_record) (b : inode_backref)
    (hm : dst.merging = true)
    (hv : b.found_inode_ref = true →
      b.ref_type = BTRFS_INODE_REF_KEY ∨ b.ref_type = BTRFS_INODE_EXTREF_KEY) :
    ∃ bs, merge_one_backref dst b =
      some { dst with backrefs := bs
                      found_link := (dst.found_link +
                        (if b.found_dir_item then 1 else 0)) } := by
  rcases Bool.eq_false_or_eq_true b.found_dir_index with hdi | hdi <;>
    rcases Bool.eq_false_or_eq_true b.found_dir_item with hdt | hdt <;>
    rcases Bool.eq_false_or_eq_true b.found_inode_ref with hir | hir
  -- 8 cases: (dir_index?, dir_item?, inode_ref?) = (T,T,T) .. (F,F,F)
  · obtain ⟨bs1, h1⟩ := add_dir_index_merging dst hm b.dir b.index b.namelen
      b.filetype b.errors b.name
    obtain ⟨bs2, h2⟩ := add_dir_item_merging { dst with backrefs := bs1 }
      (by exact hm) b.dir 0 b.namelen b.filetype b.errors b.name
    obtain ⟨bs3, h3⟩ := add_inode_ref_merging
      { dst with backrefs := bs2, found_link := (dst.found_link + 1) }
      (by exact hm) b.dir b.index b.namelen 0 b.errors b.ref_type b.name (hv hir)
    refine ⟨bs3, ?_⟩
    simp [merge_one_backref, hdi, hdt, hir, h1, h2, h3, add_during_merge]
  · obtain ⟨bs1, h1⟩ := add_dir_index_merging dst hm b.dir b.index b.namelen
      b.filetype b.errors b.name
    obtain ⟨bs2, h2⟩ := add_dir_item_merging { dst with backrefs := bs1 }
      (by exact hm) b.dir 0 b.namelen b.filetype b.errors b.name
    refine ⟨bs2, ?_⟩
    simp [merge_one_backref, hdi, hdt, hir, h1, h2, add_during_merge]
  · obtain ⟨bs1, h1⟩ := add_dir_index_merging dst hm b.dir b.index b.namelen
      b.filetype b.errors b.name
    obtain ⟨bs3, h3⟩ := add_inode_ref_merging { dst with backrefs := bs1 }
      (by exact hm) b.dir b.index b.namelen 0 b.errors b.ref_type b.name (hv hir)
    refine ⟨bs3, ?_⟩
    simp [merge_one_backref, hdi, hdt, hir, h1, h3, add_during_merge]
  · obtain ⟨bs1, h1⟩ := add_dir_index_merging dst hm b.dir b.index b.namelen
      b.filetype b.errors b.name
    refine ⟨bs1, ?_⟩
    simp [merge_one_backref, hdi, hdt, hir, h1, add_during_merge]
  · obtain ⟨bs2, h2⟩ := add_dir_item_merging dst hm b.dir 0 b.namelen b.filetype
      b.errors b.name
    obtain ⟨bs3, h3⟩ := add_inode_ref_merging
      { dst with backrefs := bs2, found_link := (dst.found_link + 1) }
      (by exact hm) b.dir b.index b.namelen 0 b.errors b.ref_type b.name (hv hir)
    refine ⟨bs3, ?_⟩
    simp [merge_one_backref, hdi, hdt, hir, h2, h3, add_during_merge]
  · obtain ⟨bs2, h2⟩ := add_dir_item_merging dst hm b.dir 0 b.namelen b.filetype
      b.errors b.name
    refine ⟨bs2, ?_⟩
    simp [merge_one_backref, hdi, hdt, hir, h2, add_during_merge]
  · obtain ⟨bs3, h3⟩ := add_inode_ref_merging dst hm b.dir b.index b.namelen 0
      b.errors b.ref_type b.name (hv hir)
    refine ⟨bs3, ?_⟩
    simp [merge_one_backref, hdi, hdt, hir, h3, add_during_merge]
  · refine ⟨dst.backrefs, ?_⟩
    simp [merge_one_backref, hdi, hdt, hir]

lemma merge_backrefs_spec (bs : List inode_backref) (dst : inode_record)
    (hm : dst.merging = true)
    (hv : ∀ b ∈ bs, b.found_inode_ref = true →
      b.ref_type = BTRFS_INODE_REF_KEY ∨ b.ref_type = BTRFS_INODE_EXTREF_KEY) :
    ∃ bs', merge_backrefs dst bs =
      some { dst with backrefs := bs'
                      found_link := (dst.found_link + dir_count bs) } := by
  induction bs generalizing dst with
  | nil =>
    refine ⟨dst.backrefs, ?_⟩
    simp [merge_backrefs, dir_count]
  | cons b rest ih =>
    obtain ⟨bs1, h1⟩ := merge_one_backref_spec dst b hm
      (fun h => hv b (by simp) h)
    obtain ⟨bs2, h2⟩ := ih
      { dst with backrefs := bs1
                 found_link := (dst.found_link +
                   (if b.found_dir_item then 1 else 0)) }
      (by exact hm) (fun x hx h => hv x (by simp [hx]) h)
    refine ⟨bs2, ?_⟩
    have harith : dst.found_link + (if b.found_dir_item then 1 else 0)
        + dir_count rest = dst.found_link + dir_count (b :: rest) := by
      rcases Bool.eq_false_or_eq_true b.found_dir_item with hd | hd <;>
        simp [dir_count, List.filter, hd] <;> omega
    calc merge_backrefs dst (b :: rest)
        = merge_backrefs
            { dst with backrefs := bs1
                       found_link := (dst.found_link +
                         (if b.found_dir_item then 1 else 0)) } rest := by
          rw [merge_backrefs, h1]
      _ = some { dst with backrefs := bs2
                          found_link := (dst.found_link +
                            (if b.found_dir_item then 1 else 0) +
                            dir_count rest) } := h2
      _ = some { dst with backrefs := bs2
                          found_link := (dst.found_link + dir_count (b :: rest)) } := by
          rw [harith]

lemma merge_flags_proj (src d : inode_record) :
    (merge_flags src d).found_link = d.found_link ∧
      (merge_flags src d).found_size = d.found_size ∧
      (merge_flags src d).extent_start = d.extent_start ∧
      (merge_flags src d).extent_end = d.extent_end ∧
      (merge_flags src d).found_inode_item = d.found_inode_item ∧
      (merge_flags src d).found_dir_item = (d.found_dir_item || src.found_dir_item) ∧
      (merge_flags src d).found_file_extent
        = (d.found_file_extent || src.found_file_extent) ∧
      (merge_flags src d).found_csum_item
        = (d.found_csum_item || src.found_csum_item) ∧
      (merge_flags src d).some_csum_missing
        = (d.some_csum_missing || src.some_csum_missing) := by
  simp [merge_flags]

lemma merge_counts_proj (src : inode_record) (dc : Nat) (d : inode_record) :
    (merge_counts src dc d).found_link = d.found_link + (src.found_link - dc) ∧
      (merge_counts src dc d).found_size = d.found_size + src.found_size ∧
      (merge_counts src dc d).extent_start = d.extent_start ∧
      (merge_counts src dc d).extent_end = d.extent_end ∧
      (merge_counts src dc d).found_inode_item = d.found_inode_item ∧
      (merge_counts src dc d).found_dir_item = d.found_dir_item ∧
      (merge_counts src dc d).found_file_extent = d.found_file_extent ∧
      (merge_counts src dc d).found_csum_item = d.found_csum_item ∧
      (merge_counts src dc d).some_csum_missing = d.some_csum_missing := by
  simp [merge_counts]

lemma merge_span_proj (src d : inode_record) :
    (merge_span src d).found_link = d.found_link ∧
      (merge_span src d).found_size = d.found_size ∧
      (merge_span src d).found_inode_item = d.found_inode_item ∧
      (merge_span src d).found_dir_item = d.found_dir_item ∧
      (merge_span src d).found_file_extent = d.found_file_extent ∧
      (merge_span src d).found_csum_item = d.found_csum_item ∧
      (merge_span src d).some_csum_missing = d.some_csum_missing := by
  unfold merge_span merge_span_overlap merge_span_grow
  split_ifs <;> simp

lemma merge_span_end (src d : inode_record) :
    (merge_span src d).extent_end =
      if src.extent_start = u64max then d.extent_end
      else if d.extent_start = u64max then src.extent_end
      else max d.extent_end src.extent_end := by
  by_cases h1 : src.extent_start = u64max
  · simp [merge_span, h1]
  · by_cases h2 : d.extent_start = u64max
    · simp [merge_span, h1, h2]
    · simp only [merge_span, h1, h2, if_neg, if_pos, ne_eq, not_false_eq_true,
        if_true, if_false]
      unfold merge_span_grow merge_span_overlap
      split_ifs <;> simp_all <;> omega

lemma merge_errors_proj (src d : inode_record) :
    (merge_errors src d).found_link = d.found_link ∧
      (merge_errors src d).found_size = d.found_size ∧
      (merge_errors src d).extent_end = d.extent_end ∧
      (merge_errors src d).found_inode_item = d.found_inode_item ∧
      (merge_errors src d).found_dir_item = d.found_dir_item ∧
      (merge_errors src d).found_file_extent = d.found_file_extent ∧
      (merge_errors src d).found_csum_item = d.found_csum_item ∧
      (merge_errors src d).some_csum_missing = d.some_csum_missing := by
  simp [merge_errors]

lemma merge_item_proj (src d : inode_record) :
    (merge_item src d).found_link = d.found_link ∧
      (merge_item src d).found_size = d.found_size ∧
      (merge_item src d).extent_end = d.extent_end ∧
      (merge_item src d).found_inode_item
        = (d.found_inode_item || src.found_inode_item) ∧
      (merge_item src d).found_dir_item = d.found_dir_item ∧
      (merge_item src d).found_file_extent = d.found_file_extent ∧
      (merge_item src d).found_csum_item = d.found_csum_item ∧
      (merge_item src d).some_csum_missing = d.some_csum_missing := by
  unfold merge_item
  rcases Bool.eq_false_or_eq_true src.found_inode_item with h1 | h1 <;>
    rcases Bool.eq_false_or_eq_true d.found_inode_item with h2 | h2 <;>
    simp [h1, h2]

lemma merge_scalar_core_fields (src d : inode_record) (dc : Nat) :
    (merge_scalar_core src d dc).found_link
        = d.found_link + (src.found_link - dc) ∧
      (merge_scalar_core src d dc).found_size
        = d.found_size + src.found_size ∧
      (merge_scalar_core src d dc).extent_end
        = (if src.extent_start = u64max then d.extent_end
           else if d.extent_start = u64max then src.extent_end
           else max d.extent_end src.extent_end) ∧
      (merge_scalar_core src d dc).found_inode_item
        = (d.found_inode_item || src.found_inode_item) ∧
      (merge_scalar_core src d dc).found_dir_item
        = (d.found_dir_item || src.found_dir_item) ∧
      (merge_scalar_core src d dc).found_file_extent
        = (d.found_file_extent || src.found_file_extent) ∧
      (merge_scalar_core src d dc).found_csum_item
        = (d.found_csum_item || src.found_csum_item) ∧
      (merge_scalar_core src d dc).some_csum_missing
        = (d.some_csum_missing || src.some_csum_missing) := by
  obtain ⟨p1, p2, p3, p4, p5, p6, p7, p8⟩ := merge_item_proj src
    (merge_errors src (merge_span src (merge_counts src dc (merge_flags src d))))
  obtain ⟨q1, q2, q3, q4, q5, q6, q7, q8⟩ := merge_errors_proj src
    (merge_span src (merge_counts src dc (merge_flags src d)))
  obtain ⟨s1, s2, s3, s4, s5, s6, s7⟩ := merge_span_proj src
    (merge_counts src dc (merge_flags src d))
  have send := merge_span_end src (merge_counts src dc (merge_flags src d))
  obtain ⟨t1, t2, t3, t4, t5, t6, t7, t8, t9⟩ := merge_counts_proj src dc
    (merge_flags src d)
  obtain ⟨u1, u2, u3, u4, u5, u6, u7, u8, u9⟩ := merge_flags_proj src d
  unfold merge_scalar_core
  refine ⟨?_, ?_, ?_, ?_, ?_, ?_, ?_, ?_⟩
  · rw [p1, q1, s1, t1, u1]
  · rw [p2, q2, s2, t2, u2]
  · rw [p3, q3, send, t3, u3, t4, u4]
  · rw [p4, q4, s3, t5, u5]
  · rw [p5, q5, s4, t6, u6]
  · rw [p6, q6, s5, t7, u7]
  · rw [p7, q7, s6, t8, u8]
  · rw [p8, q8, s7, t9, u9]

/-- C4 amended: `merge_inode_recs` is not order-independent on the
extent-span fields (`extent_start`, `first_extent_gap`) and the
span-derived error flags; it is order-independent on the accumulator
fields: `found_link`, `found_size`, `extent_end`, `found_inode_item` and
the `found_dir_item` / `found_file_extent` / `found_csum_item` /
`some_csum_missing` flags.  The hypotheses state that the two records are
well-formed accumulator states: a record without extents has
`extent_end = 0`, `found_link` dominates the dir-item count of its backrefs
(the `BUG_ON` guard), and inode-ref backrefs carry a valid ref item type. -/
theorem C4_amended_merge_commutative_on_accumulator_fields
    (src dst : inode_record)
    (hs1 : src.extent_start = u64max → src.extent_end = 0)
    (hd1 : dst.extent_start = u64max → dst.extent_end = 0)
    (hs2 : dir_count src.backrefs ≤ src.found_link)
    (hd2 : dir_count dst.backrefs ≤ dst.found_link)
    (hs3 : ∀ b ∈ src.backrefs, b.found_inode_ref = true →
      b.ref_type = BTRFS_INODE_REF_KEY ∨ b.ref_type = BTRFS_INODE_EXTREF_KEY)
    (hd3 : ∀ b ∈ dst.backrefs, b.found_inode_ref = true →
      b.ref_type = BTRFS_INODE_REF_KEY ∨ b.ref_type = BTRFS_INODE_EXTREF_KEY) :
    ∃ r1 r2, merge_inode_recs src dst = some r1 ∧
      merge_inode_recs dst src = some r2 ∧
      r1.found_link = r2.found_link ∧
      r1.found_size = r2.found_size ∧
      r1.extent_end = r2.extent_end ∧
      r1.found_inode_item = r2.found_inode_item ∧
      r1.found_dir_item = r2.found_dir_item ∧
      r1.found_file_extent = r2.found_file_extent ∧
      r1.found_csum_item = r2.found_csum_item ∧
      r1.some_csum_missing = r2.some_csum_missing := by
  obtain ⟨bs1, h1⟩ := merge_backrefs_spec src.backrefs
    { dst with merging := true } (by simp) hs3
  obtain ⟨bs2, h2⟩ := merge_backrefs_spec dst.backrefs
    { src with merging := true } (by simp) hd3
  have e1 : merge_inode_recs src dst =
      some { (merge_scalar_core src
          { dst with merging := true
                     backrefs := bs1
                     found_link := (dst.found_link + dir_count src.backrefs) }
          (dir_count src.backrefs)) with merging := false } := by
    unfold merge_inode_recs
    rw [h1]
    show (if src.found_link < dir_count src.backrefs then none else some _) = _
    rw [if_neg (by omega)]
  have e2 : merge_inode_recs dst src =
      some { (merge_scalar_core dst
          { src with merging := true
                     backrefs := bs2
                     found_link := (src.found_link + dir_count dst.backrefs) }
          (dir_count dst.backrefs)) with merging := false } := by
    unfold merge_inode_recs
    rw [h2]
    show (if dst.found_link < dir_count dst.backrefs then none else some _) = _
    rw [if_neg (by omega)]
  obtain ⟨a1, a2, a3, a4, a5, a6, a7, a8⟩ := merge_scalar_core_fields src
    { dst with merging := true
               backrefs := bs1
               found_link := (dst.found_link + dir_count src.backrefs) }
    (dir_count src.backrefs)
  obtain ⟨b1, b2, b3, b4, b5, b6, b7, b8⟩ := merge_scalar_core_fields dst
    { src with merging := true
               backrefs := bs2
               found_link := (src.found_link + dir_count dst.backrefs) }
    (dir_count dst.backrefs)
  refine ⟨_, _, e1, e2, ?_, ?_, ?_, ?_, ?_, ?_, ?_, ?_⟩
  -- found_link
  · show (merge_scalar_core src _ _).found_link
      = (merge_scalar_core dst _ _).found_link
    rw [a1, b1]
    simp only []
    omega
  -- found_size
  · show (merge_scalar_core src _ _).found_size
      = (merge_scalar_core dst _ _).found_size
    rw [a2, b2]
    simp only []
    omega
  -- extent_end
  · show (merge_scalar_core src _ _).extent_end
      = (merge_scalar_core dst _ _).extent_end
    rw [a3, b3]
    by_cases hse : src.extent_start = u64max
    · by_cases hde : dst.extent_start = u64max
      · simp [hse, hde, hs1 hse, hd1 hde]
      · simp [hse, hde]
    · by_cases hde : dst.extent_start = u64max
      · simp [hse, hde]
      · simp [hse, hde, Nat.max_comm]
  -- found_inode_item
  · show (merge_scalar_core src _ _).found_inode_item
      = (merge_scalar_core dst _ _).found_inode_item
    rw [a4, b4]
    exact Bool.or_comm _ _
  -- found_dir_item
  · show (merge_scalar_core src _ _).found_dir_item
      = (merge_scalar_core dst _ _).found_dir_item
    rw [a5, b5]
    exact Bool.or_comm _ _
  -- found_file_extent
  · show (merge_scalar_core src _ _).found_file_extent
      = (merge_scalar_core dst _ _).found_file_extent
    rw [a6, b6]
    exact Bool.or_comm _ _
  -- found_csum_item
  · show (merge_scalar_core src _ _).found_csum_item
      = (merge_scalar_core dst _ _).found_csum_item
    rw [a7, b7]
    exact Bool.or_comm _ _
  -- some_csum_missing
  · show (merge_scalar_core src _ _).some_csum_missing
      = (merge_scalar_core dst _ _).some_csum_missing
    rw [a8, b8]
    exact Bool.or_comm _ _

/-- C4 amended witness: the amended theorem instantiated at the two concrete
span records of the counterexample. -/
theorem C4_amended_witness :
    ∃ r1 r2, merge_inode_recs c4_recA c4_recB = some r1 ∧
      merge_inode_recs c4_recB c4_recA = some r2 ∧
      r1.found_link = r2.found_link ∧
      r1.found_size = r2.found_size ∧
      r1.extent_end = r2.extent_end ∧
      r1.found_inode_item = r2.found_inode_item ∧
      r1.found_dir_item = r2.found_dir_item ∧
      r1.found_file_extent = r2.found_file_extent ∧
      r1.found_csum_item = r2.found_csum_item ∧
      r1.some_csum_missing = r2.some_csum_missing :=
  C4_amended_merge_commutative_on_accumulator_fields c4_recA c4_recB
    (by decide) (by decide) (by decide) (by decide) (by decide) (by decide)

/-! ## C7: `copy_one_extent` mirror retries

From `copy_one_extent` (cmds-restore.c).  The device layer is a parameter:
`mapLen` is the length clamp applied by `btrfs_map_block`, `preadRes` the
byte count returned by `pread` on a given (mirror, logical offset, length)
request, `numCopies` the `btrfs_num_copies` answer, and `decompOk` whether
`decompress` succeeds on the filled buffer.  The output-file write loop
always succeeds and is collapsed.  The model returns the result value and
the trace of `(mirror, bytenr, length)` read attempts; `none` means the
fuel ran out (the C code loops). -/

structure extent_read_env where
  mapLen : Nat → Nat → Nat
  preadRes : Nat → Nat → Nat → Int
  numCopies : Nat → Nat → Nat
  decompOk : Bool

/-- The `again:` loop of `copy_one_extent`. -/
def copy_one_extent_loop (env : extent_read_env) (compress : Bool) :
    Nat → Nat → Nat → Nat → Nat → List (Nat × Nat × Nat) →
    Option (Int × List (Nat × Nat × Nat))
  | 0, _, _, _, _, _ => none
  | fuel + 1, mirror_num, size_left, count, bytenr, trace =>
    let length0 := env.mapLen bytenr size_left
    let length := if size_left < length0 then size_left else length0
    let done := env.preadRes mirror_num bytenr length
    let trace1 := trace ++ [(mirror_num, bytenr, length)]
    if done < 0 ∨ done < (length : Int) then
      if mirror_num + 1 > env.numCopies bytenr length then some (-1, trace1)
      else copy_one_extent_loop env compress fuel (mirror_num + 1) size_left
        count bytenr trace1
    else
      -- mirror_num = 1; size_left -= length; count += length; bytenr += length
      if size_left - length ≠ 0 then
        copy_one_extent_loop env compress fuel 1 (size_left - length)
          (count + length) (bytenr + length) trace1
      else if compress = false then some (0, trace1)
      else if env.decompOk then some (0, trace1)
      else
        -- decompression failed: mirror_num is 1 here; mirror_num++ gives 2,
        -- and the code gives up already when 2 >= num_copies
        if 1 + 1 ≥ env.numCopies (bytenr + length) length then some (-1, trace1)
        else copy_one_extent_loop env compress fuel (1 + 1) (size_left - length)
          (count + length) (bytenr + length) trace1

/-- `copy_one_extent` for a non-inline extent: holes (`disk_size == 0`)
return immediately; otherwise the read loop starts at mirror 1. -/
def copy_one_extent (env : extent_read_env) (compress : Bool)
    (disk_size bytenr fuel : Nat) : Option (Int × List (Nat × Nat × Nat)) :=
  if disk_size = 0 then some (0, [])
  else copy_one_extent_loop env compress fuel 1 disk_size 0 bytenr []

/-- Full reads on every mirror, two copies, decompression always fails. -/
def c7_env : extent_read_env :=
  { mapLen := fun _ l => l
    preadRes := fun _ _ l => (l : Int)
    numCopies := fun _ _ => 2
    decompOk := false }

/-- Reads always come back empty (short read), two copies. -/
def c7_env_short : extent_read_env :=
  { mapLen := fun _ l => l
    preadRes := fun _ _ _ => 0
    numCopies := fun _ _ => 2
    decompOk := false }

/-- C7: on a decompression failure `copy_one_extent` gives up without ever
reading mirror 2 even though `num_copies = 2` (the guard is
`mirror_num >= num_copies` after resetting `mirror_num` to 1), while on a
short read it does attempt every mirror 1..num_copies before failing —
so the claim that every mirror up to and including `num_copies` is
attempted on a decompression failure does not hold. -/
theorem C7_decompression_retry_skips_last_mirror :
    copy_one_extent c7_env true 8192 4096 10 =
      some (-1, [(1, 4096, 8192)]) ∧
      copy_one_extent c7_env_short true 8192 4096 10 =
        some (-1, [(1, 4096, 8192), (2, 4096, 8192)]) := by
  exact ⟨rfl, rfl⟩

/-! ## C10: `check_cache_range` and `verify_space_cache`

From `check_cache_range` and `verify_space_cache` (cmds-check.c).  The
free-space cache helpers `btrfs_find_free_space` / `unlink_free_space`
live in free-space-cache.c, outside this source tree, and are modelled
from the spec; `btrfs_rmap_block` output is a parameter: `supers` is the
list of `(logical, stripe_len)` superblock stripe ranges in the order the
`while (nr--)` loops visit them.  The extent-tree iteration
(`btrfs_search_slot` + `btrfs_next_leaf`) is abstracted to the list of
item keys from the search position onward.  `fuel` bounds the recursion
of `check_cache_range` into its own left split; `none` means it ran out
(never happens for fuel above the recursion depth). -/

def EINVAL : Int := 22

def BTRFS_SUPER_INFO_OFFSET : Nat := 65536

def BTRFS_EXTENT_ITEM_KEY : Nat := 168

def BTRFS_METADATA_ITEM_KEY : Nat := 169

structure btrfs_free_space where
  offset : Nat
  bytes : Nat
  deriving Repr, DecidableEq

/-- Modelled from the spec: `btrfs_find_free_space` (free-space-cache.c is
not part of this source tree).  The spec loads the cache "into an interval
map keyed by offset"; the lookup returns the cache entry overlapping the
queried range. -/
def btrfs_find_free_space (map : List btrfs_free_space) (offset bytes : Nat) :
    Option btrfs_free_space :=
  map.find? (fun e => decide (e.offset < offset + bytes) &&
    decide (offset < e.offset + e.bytes))

/-- The superblock-carving loop of `check_cache_range` followed by the
exact-match lookup and `unlink_free_space` removal. -/
def ccr_super_loop
    (recurse : List btrfs_free_space → Nat → Nat →
      Option (Int × List btrfs_free_space)) :
    List (Nat × Nat) → List btrfs_free_space → Nat → Nat →
    Option (Int × List btrfs_free_space)
  | [], map, offset, bytes =>
    match btrfs_find_free_space map offset bytes with
    | none => some (-EINVAL, map)
    | some entry =>
      if entry.offset ≠ offset then some (-EINVAL, map)
      else if entry.bytes ≠ bytes then some (-EINVAL, map)
      else some (0, map.erase entry)
  | (logical, stripe_len) :: rest, map, offset, bytes =>
    if logical + stripe_len ≤ offset then
      ccr_super_loop recurse rest map offset bytes
    else if offset + bytes ≤ logical then
      ccr_super_loop recurse rest map offset bytes
    else if logical = offset then
      if stripe_len ≥ bytes then some (0, map)
      else ccr_super_loop recurse rest map (offset + stripe_len)
        (bytes - stripe_len)
    else if logical < offset then
      if logical + stripe_len ≥ offset + bytes then some (0, map)
      else ccr_super_loop recurse rest map (logical + stripe_len)
        ((offset + bytes) - (logical + stripe_len))
    else
      if logical + stripe_len ≥ bytes + offset then
        ccr_super_loop recurse rest map offset (logical - offset)
      else
        match recurse map offset (logical - offset) with
        | none => none
        | some (r, map1) =>
          if r ≠ 0 then some (r, map1)
          else ccr_super_loop recurse rest map1 (logical + stripe_len)
            ((offset + bytes) - (logical + stripe_len))

/-- `check_cache_range(root, cache, offset, bytes)`. -/
def check_cache_range :
    Nat → List (Nat × Nat) → List btrfs_free_space → Nat → Nat →
    Option (Int × List btrfs_free_space)
  | 0, _, _, _, _ => none
  | fuel + 1, supers, map, offset, bytes =>
    ccr_super_loop (check_cache_range fuel supers) supers map offset bytes

/-- The item loop of `verify_space_cache`: walk the extent-tree items,
carve the free gap before each allocated extent out of the cache, and
advance `last` past the extent (by `key.offset` for extent items, by the
leaf size for metadata items). -/
def vsc_loop (fuel : Nat) (supers : List (Nat × Nat)) (bgEnd leafsize : Nat) :
    List btrfs_key → List btrfs_free_space → Nat →
    Option (Int × List btrfs_free_space × Nat)
  | [], map, last => some (0, map, last)
  | k :: rest, map, last =>
    if k.objectid ≥ bgEnd then some (0, map, last)
    else if k.type ≠ BTRFS_EXTENT_ITEM_KEY ∧ k.type ≠ BTRFS_METADATA_ITEM_KEY then
      vsc_loop fuel supers bgEnd leafsize rest map last
    else if last = k.objectid then
      vsc_loop fuel supers bgEnd leafsize rest map (k.objectid + k.offset)
    else
      match check_cache_range fuel supers map last (k.objectid - last) with
      | none => none
      | some (r, map1) =>
        if r ≠ 0 then some (r, map1, last)
        else vsc_loop fuel supers bgEnd leafsize rest map1
          (if k.type = BTRFS_EXTENT_ITEM_KEY then k.objectid + k.offset
           else k.objectid + leafsize)

/-- `verify_space_cache(root, cache)`: note that the trailing-gap check
`ret = check_cache_range(...)` overwrites whatever `ret` the loop broke
with, and only then is the leftover-entries test applied. -/
def verify_space_cache (fuel : Nat) (supers : List (Nat × Nat))
    (bg_objectid bg_offset leafsize : Nat) (items : List btrfs_key)
    (map : List btrfs_free_space) : Option (Int × List btrfs_free_space) :=
  match vsc_loop fuel supers (bg_objectid + bg_offset) leafsize items map
      (max bg_objectid BTRFS_SUPER_INFO_OFFSET) with
  | none => none
  | some (r, map1, last) =>
    match (if last < bg_objectid + bg_offset then
             check_cache_range fuel supers map1 last
               (bg_objectid + bg_offset - last)
           else some (r, map1)) with
    | none => none
    | some (r2, map2) =>
      some (if r2 = 0 ∧ map2 ≠ [] then -EINVAL else r2, map2)

/-- One allocated extent in the middle of the block group
`[1048576, 1179648)`. -/
def c10_items : List btrfs_key := [⟨1081344, 168, 4096⟩]

/-- A free-space cache claiming the whole block group is free. -/
def c10_map : List btrfs_free_space := [⟨1048576, 131072⟩]

/-- C10: the free gap `[1048576, 1081344)` before the allocated extent has
no exactly matching cache entry, so its `check_cache_range` fails with
`-EINVAL` — yet `verify_space_cache` returns 0 for the same inputs: the
loop breaks with `-EINVAL`, and the unconditional trailing-gap check
`ret = check_cache_range(last, end - last)` then succeeds against the
whole-range entry and overwrites the error, leaving the map empty. -/
theorem C10_verify_space_cache_masks_mismatch :
    check_cache_range 16 [] c10_map 1048576 32768 = some (-EINVAL, c10_map) ∧
      verify_space_cache 16 [] 1048576 131072 4096 c10_items c10_map =
        some (0, []) := by
  exact ⟨rfl, rfl⟩

/-! ## C2: `generic_bin_search` and `btrfs_search_slot`

From `generic_bin_search`, `bin_search`, `read_node_slot` and
`btrfs_search_slot` (ctree.c), in the read-only configuration of the claim
(`trans = NULL`, `ins_len = 0`, `cow = 0`, `p->lowest_level = 0`), so the
COW, split and balance branches are not taken.  A tree block is its key
content: a leaf is its ordered item keys, an internal node its ordered
`(key, child)` pointer pairs (`read_node_slot` hands back the child,
`-EIO` when the slot is out of range).  The claim presumes all blocks read
and validate, so `check_block` is not modelled.  The result carries the
C path: `ret`, `path.slots` with level 0 (the leaf slot) first, and the
keys of `path.nodes[0]`. -/

def dummy_key : btrfs_key := ⟨0, 0, 0⟩

inductive btree where
  | leaf (keys : List btrfs_key)
  | node (ptrs : List (btrfs_key × btree))

/-- `generic_bin_search`: binary search between `low` and `high`, returning
`(0, slot)` on an exact key match and `(1, low)` with the insertion slot
otherwise. -/
def generic_bin_search (keys : List btrfs_key) (key : btrfs_key)
    (low high : Nat) : Nat × Nat :=
  if low < high then
    if btrfs_comp_keys (keys.getD ((low + high) / 2) dummy_key) key < 0 then
      generic_bin_search keys key ((low + high) / 2 + 1) high
    else if btrfs_comp_keys (keys.getD ((low + high) / 2) dummy_key) key > 0 then
      generic_bin_search keys key low ((low + high) / 2)
    else (0, (low + high) / 2)
  else (1, low)
termination_by high - low
decreasing_by
  all_goals omega

/-- The slot chosen at an internal node: `bin_search` over the pointer
keys, then `if (ret && slot > 0) slot -= 1;`. -/
def node_slot (ptrs : List (btrfs_key × btree)) (key : btrfs_key) : Nat :=
  if (generic_bin_search (ptrs.map Prod.fst) key 0 ptrs.length).1 ≠ 0 ∧
      (generic_bin_search (ptrs.map Prod.fst) key 0 ptrs.length).2 > 0 then
    (generic_bin_search (ptrs.map Prod.fst) key 0 ptrs.length).2 - 1
  else (generic_bin_search (ptrs.map Prod.fst) key 0 ptrs.length).2

/-- `btrfs_search_slot` with `ins_len = 0`, `cow = 0`, `lowest_level = 0`:
descend choosing `node_slot` at each internal node (`read_node_slot`
returning NULL surfaces as `-EIO`), record the slot at the leaf and
return `ret` from the leaf-level `bin_search`. -/
def btrfs_search_slot : btree → btrfs_key →
    Except Int (Nat × List Nat × List btrfs_key)
  | .leaf keys, key =>
    .ok ((generic_bin_search keys key 0 keys.length).1,
      [(generic_bin_search keys key 0 keys.length).2], keys)
  | .node ptrs, key =>
    match hget : ptrs.get? (node_slot ptrs key) with
    | some kc =>
      match btrfs_search_slot kc.2 key with
      | .ok (ret, slots, leafKeys) => .ok (ret, slots ++ [node_slot ptrs key], leafKeys)
      | .error e => .error e
    | none => .error (-5)
termination_by t _ => sizeOf t
decreasing_by
  simp_wf
  have h1 := List.sizeOf_lt_of_mem (List.get?_mem hget)
  obtain ⟨k, c⟩ := kc
  simp at h1 ⊢
  omega

/-- All keys stored in a tree, in left-to-right order. -/
def treeKeys : btree → List btrfs_key
  | .leaf keys => keys
  | .node ptrs => (ptrs.attach.map (fun p => treeKeys p.1.2)).flatten
termination_by t => sizeOf t
decreasing_by
  simp_wf
  have h1 := List.sizeOf_lt_of_mem p.2
  obtain ⟨⟨k, c⟩, hp⟩ := p
  simp at h1 ⊢
  omega

/-- Well-formedness of a tree block as the searched trees satisfy it:
leaves are strictly sorted (invariant I1), internal nodes are nonempty
with strictly increasing pointer keys (invariant I2), children are
well-formed, and the keys of child `i` lie in the half-open interval
between pointer key `i` and pointer key `i+1`. -/
def wfTree : btree → Prop
  | .leaf keys => List.Pairwise keyLt keys
  | .node ptrs =>
    ptrs ≠ [] ∧
    List.Pairwise keyLt (ptrs.map Prod.fst) ∧
    (∀ p ∈ ptrs.attach, wfTree p.1.2) ∧
    (∀ i, (hi : i < ptrs.length) → ∀ x ∈ treeKeys (ptrs.get ⟨i, hi⟩).2,
      ¬ keyLt x (ptrs.get ⟨i, hi⟩).1 ∧
      (∀ hi2 : i + 1 < ptrs.length, keyLt x (ptrs.get ⟨i + 1, hi2⟩).1))
termination_by t => sizeOf t
decreasing_by
  simp_wf
  have h1 := List.sizeOf_lt_of_mem p.2
  obtain ⟨⟨k, c⟩, hp⟩ := p
  simp at h1 ⊢
  omega

/-- A root-to-leaf descent check for a slot list given root-first: at each
node the slot addresses a child, and the final leaf matches the recorded
keys with the slot at most `nritems` (the insertion point may be one past
the last item). -/
def descend_ok : btree → List Nat → List btrfs_key → Bool
  | .leaf keys, [s], leafKeys => decide (s ≤ keys.length) && (leafKeys == keys)
  | .node ptrs, s :: rest, leafKeys =>
    (match hget : ptrs.get? s with
     | some kc => descend_ok kc.2 rest leafKeys
     | none => false)
  | _, _, _ => false
termination_by t _ _ => sizeOf t
decreasing_by
  simp_wf
  have h1 := List.sizeOf_lt_of_mem (List.get?_mem hget)
  obtain ⟨k, c⟩ := kc
  simp at h1 ⊢
  omega

lemma getD_lt_of_pairwise (l : List btrfs_key) (h : List.Pairwise keyLt l)
    (i j : Nat) (hij : i < j) (hj : j < l.length) :
    keyLt (l.getD i dummy_key) (l.getD j dummy_key) := by
  have hi : i < l.length := lt_trans hij hj
  rw [List.getD_eq_get l dummy_key hi, List.getD_eq_get l dummy_key hj]
  exact List.pairwise_iff_get.mp h ⟨i, hi⟩ ⟨j, hj⟩ hij

lemma generic_bin_search_spec (keys : List btrfs_key) (key : btrfs_key) :
    ∀ (n low high : Nat), high - low ≤ n → low ≤ high → high ≤ keys.length →
    List.Pairwise keyLt keys →
    (∀ i, i < low → keyLt (keys.getD i dummy_key) key) →
    (∀ i, high ≤ i → i < keys.length → keyLt key (keys.getD i dummy_key)) →
    ((generic_bin_search keys key low high).1 = 0 ∨
      (generic_bin_search keys key low high).1 = 1) ∧
    ((generic_bin_search keys key low high).1 = 0 →
      (generic_bin_search keys key low high).2 < keys.length ∧
      keys.getD (generic_bin_search keys key low high).2 dummy_key = key) ∧
    ((generic_bin_search keys key low high).1 = 1 →
      low ≤ (generic_bin_search keys key low high).2 ∧
      (generic_bin_search keys key low high).2 ≤ high ∧
      (∀ i, i < (generic_bin_search keys key low high).2 → i < keys.length →
        keyLt (keys.getD i dummy_key) key) ∧
      (∀ i, (generic_bin_search keys key low high).2 ≤ i → i < keys.length →
        keyLt key (keys.getD i dummy_key))) := by
  intro n
  induction n with
  | zero =>
    intro low high hfuel hle hhigh hsort hlow hupp
    have heq : ¬ low < high := by omega
    have hstep : generic_bin_search keys key low high = (1, low) := by
      rw [generic_bin_search, if_neg heq]
    rw [hstep]
    refine ⟨Or.inr rfl, by simp, fun _ => ⟨le_refl low, hle, ?_, ?_⟩⟩
    · intro i hi _
      exact hlow i hi
    · intro i hi hilen
      exact hupp i (by omega) hilen
  | succ n ih =>
    intro low high hfuel hle hhigh hsort hlow hupp
    by_cases hlh : low < high
    · have hmid1 : low ≤ (low + high) / 2 := by omega
      have hmid2 : (low + high) / 2 < high := by omega
      rcases lt_trichotomy
        (btrfs_comp_keys (keys.getD ((low + high) / 2) dummy_key) key) 0
        with hc | hc | hc
      · have hstep : generic_bin_search keys key low high
            = generic_bin_search keys key ((low + high) / 2 + 1) high := by
          rw [generic_bin_search, if_pos hlh, if_pos hc]
        rw [hstep]
        have hmlt : keyLt (keys.getD ((low + high) / 2) dummy_key) key :=
          (comp_keys_neg_iff _ _).mp hc
        have hnewlow : ∀ i, i < (low + high) / 2 + 1 →
            keyLt (keys.getD i dummy_key) key := by
          intro i hi
          by_cases hil : i < low
          · exact hlow i hil
          · by_cases hie : i = (low + high) / 2
            · rw [hie]
              exact hmlt
            · exact keyLt_trans
                (getD_lt_of_pairwise keys hsort i ((low + high) / 2)
                  (by omega) (by omega)) hmlt
        obtain ⟨w1, w2, w3⟩ := ih ((low + high) / 2 + 1) high (by omega)
          (by omega) hhigh hsort hnewlow hupp
        refine ⟨w1, w2, fun h1 => ?_⟩
        obtain ⟨x1, x2, x3, x4⟩ := w3 h1
        exact ⟨by omega, x2, x3, x4⟩
      · have hstep : generic_bin_search keys key low high
            = (0, (low + high) / 2) := by
          rw [generic_bin_search, if_pos hlh, if_neg (by omega), if_neg (by omega)]
        rw [hstep]
        refine ⟨Or.inl rfl, fun _ => ⟨by omega, (comp_keys_zero_iff _ _).mp hc⟩,
          by simp⟩
      · have hstep : generic_bin_search keys key low high
            = generic_bin_search keys key low ((low + high) / 2) := by
          rw [generic_bin_search, if_pos hlh, if_neg (by omega), if_pos hc]
        rw [hstep]
        have hmgt : keyLt key (keys.getD ((low + high) / 2) dummy_key) :=
          (comp_keys_pos_iff _ _).mp hc
        have hnewupp : ∀ i, (low + high) / 2 ≤ i → i < keys.length →
            keyLt key (keys.getD i dummy_key) := by
          intro i hi hilen
          by_cases hie : i = (low + high) / 2
          · rw [hie]
            exact hmgt
          · exact keyLt_trans hmgt
              (getD_lt_of_pairwise keys hsort ((low + high) / 2) i (by omega) hilen)
        obtain ⟨w1, w2, w3⟩ := ih low ((low + high) / 2) (by omega) (by omega)
          (by omega) hsort hlow hnewupp
        refine ⟨w1, w2, fun h1 => ?_⟩
        obtain ⟨x1, x2, x3, x4⟩ := w3 h1
        exact ⟨x1, by omega, x3, x4⟩
    · have hstep : generic_bin_search keys key low high = (1, low) := by
        rw [generic_bin_search, if_neg hlh]
      rw [hstep]
      refine ⟨Or.inr rfl, by simp, fun _ => ⟨le_refl low, hle, ?_, ?_⟩⟩
      · intro i hi _
        exact hlow i hi
      · intro i hi hilen
        exact hupp i (by omega) hilen

lemma treeKeys_node_mem (ptrs : List (btrfs_key × btree)) (key : btrfs_key) :
    key ∈ treeKeys (btree.node ptrs) ↔
      ∃ j, ∃ hj : j < ptrs.length, key ∈ treeKeys (ptrs.get ⟨j, hj⟩).2 := by
  rw [treeKeys]
  constructor
  · intro h
    rw [List.mem_flatten] at h
    obtain ⟨l, hl, hkey⟩ := h
    rw [List.mem_map] at hl
    obtain ⟨p, _, rfl⟩ := hl
    obtain ⟨x, hx⟩ := p
    obtain ⟨⟨j, hj⟩, hget⟩ := List.mem_iff_get.mp hx
    refine ⟨j, hj, ?_⟩
    rw [hget]
    exact hkey
  · rintro ⟨j, hj, hmem⟩
    rw [List.mem_flatten]
    refine ⟨treeKeys (ptrs.get ⟨j, hj⟩).2, ?_, hmem⟩
    rw [List.mem_map]
    exact ⟨⟨ptrs.get ⟨j, hj⟩, List.get_mem ptrs j hj⟩, List.mem_attach _ _, rfl⟩

lemma map_fst_getD (ptrs : List (btrfs_key × btree)) (i : Nat)
    (hi : i < ptrs.length) :
    (ptrs.map Prod.fst).getD i dummy_key = (ptrs.get ⟨i, hi⟩).1 := by
  have hlen : i < (ptrs.map Prod.fst).length := by simpa using hi
  rw [List.getD_eq_get _ _ hlen]
  simp

lemma sizeOf_child_lt (ptrs : List (btrfs_key × btree)) (slot : Nat)
    (h : slot < ptrs.length) :
    sizeOf (ptrs.get ⟨slot, h⟩).2 < sizeOf (btree.node ptrs) := by
  have h1 := List.sizeOf_lt_of_mem (List.get_mem ptrs slot h)
  have h2 : sizeOf (ptrs.get ⟨slot, h⟩).2 < sizeOf (ptrs.get ⟨slot, h⟩) := by
    obtain ⟨a, b⟩ := ptrs.get ⟨slot, h⟩
    simp
  simp only [btree.node.sizeOf_spec]
  omega

lemma search_slot_node_eq (ptrs : List (btrfs_key × btree)) (key : btrfs_key)
    (hs : node_slot ptrs key < ptrs.length) :
    btrfs_search_slot (.node ptrs) key =
      (match btrfs_search_slot (ptrs.get ⟨node_slot ptrs key, hs⟩).2 key with
       | .ok (ret, slots, leafKeys) =>
           .ok (ret, slots ++ [node_slot ptrs key], leafKeys)
       | .error e => .error e) := by
  rw [btrfs_search_slot]
  split
  · next kc hkc =>
    rw [List.get?_eq_get hs] at hkc
    rw [Option.some.injEq] at hkc
    rw [← hkc]
  · next hnone =>
    rw [List.get?_eq_get hs] at hnone
    cases hnone

lemma descend_ok_node (ptrs : List (btrfs_key × btree)) (s : Nat)
    (rest : List Nat) (leafKeys : List btrfs_key) (hs : s < ptrs.length) :
    descend_ok (.node ptrs) (s :: rest) leafKeys =
      descend_ok (ptrs.get ⟨s, hs⟩).2 rest leafKeys := by
  rw [descend_ok]
  split
  · next kc hkc =>
    rw [List.get?_eq_get hs] at hkc
    rw [Option.some.injEq] at hkc
    rw [← hkc]
  · next hnone =>
    rw [List.get?_eq_get hs] at hnone
    cases hnone

lemma headD_append_singleton (l : List Nat) (s : Nat) (h : l ≠ []) :
    (l ++ [s]).headD 0 = l.headD 0 := by
  cases l with
  | nil => exact absurd rfl h
  | cons a t => rfl

/-- The slot chosen at a well-formed internal node is in range, and the
searched key lies under the node iff it lies under the chosen child. -/
lemma node_slot_spec (ptrs : List (btrfs_key × btree)) (key : btrfs_key)
    (hne : ptrs ≠ [])
    (hsorted : List.Pairwise keyLt (ptrs.map Prod.fst))
    (hbounds : ∀ i, (hi : i < ptrs.length) →
      ∀ x ∈ treeKeys (ptrs.get ⟨i, hi⟩).2,
      ¬ keyLt x (ptrs.get ⟨i, hi⟩).1 ∧
      (∀ hi2 : i + 1 < ptrs.length, keyLt x (ptrs.get ⟨i + 1, hi2⟩).1)) :
    ∃ hs : node_slot ptrs key < ptrs.length,
      (key ∈ treeKeys (btree.node ptrs) ↔
        key ∈ treeKeys (ptrs.get ⟨node_slot ptrs key, hs⟩).2) := by
  have hlen0 : 0 < ptrs.length := List.length_pos.mpr hne
  have hmaplen : (ptrs.map Prod.fst).length = ptrs.length := by simp
  obtain ⟨w1, w2, w3⟩ := generic_bin_search_spec (ptrs.map Prod.fst) key
    ptrs.length 0 ptrs.length (by omega) (by omega) (by omega) hsorted
    (by omega) (fun i h1 h2 => absurd h2 (by omega))
  rcases w1 with hr0 | hr1
  · -- exact match on a pointer key: descend into that pointer's child
    obtain ⟨hlt, heq⟩ := w2 hr0
    have hslotval : node_slot ptrs key
        = (generic_bin_search (ptrs.map Prod.fst) key 0 ptrs.length).2 := by
      unfold node_slot
      rw [if_neg (by simp [hr0])]
    have hs : node_slot ptrs key < ptrs.length := by
      rw [hslotval]
      omega
    refine ⟨hs, ?_⟩
    have hkeyeq : (ptrs.get ⟨node_slot ptrs key, hs⟩).1 = key := by
      rw [← map_fst_getD ptrs (node_slot ptrs key) hs, hslotval]
      exact heq
    constructor
    · intro hmem
      rw [treeKeys_node_mem] at hmem
      obtain ⟨j, hj, hjmem⟩ := hmem
      obtain ⟨hb1, hb2⟩ := hbounds j hj key hjmem
      rcases Nat.lt_trichotomy j (node_slot ptrs key) with hjs | hjs | hjs
      · exfalso
        have hj2 : j + 1 < ptrs.length := by omega
        have hkj1 : keyLt key (ptrs.get ⟨j + 1, hj2⟩).1 := hb2 hj2
        by_cases hje : j + 1 = node_slot ptrs key
        · apply keyLt_irrefl key
          have : (ptrs.get ⟨j + 1, hj2⟩).1 = key := by
            rw [← hkeyeq]
            exact congrArg (fun f => (ptrs.get f).1) (Fin.mk_eq_mk.mpr hje)
          rw [this] at hkj1
          exact hkj1
        · have hlt2 : keyLt (ptrs.get ⟨j + 1, hj2⟩).1
              (ptrs.get ⟨node_slot ptrs key, hs⟩).1 := by
            rw [← map_fst_getD ptrs (j + 1) hj2,
              ← map_fst_getD ptrs (node_slot ptrs key) hs]
            exact getD_lt_of_pairwise _ hsorted _ _ (by omega) (by omega)
          rw [hkeyeq] at hlt2
          exact keyLt_asymm hkj1 hlt2
      · rw [show (⟨node_slot ptrs key, hs⟩ : Fin ptrs.length) = ⟨j, hj⟩ from
          Fin.mk_eq_mk.mpr hjs.symm]
        exact hjmem
      · exfalso
        apply hb1
        have hlt2 : keyLt (ptrs.get ⟨node_slot ptrs key, hs⟩).1
            (ptrs.get ⟨j, hj⟩).1 := by
          rw [← map_fst_getD ptrs (node_slot ptrs key) hs,
            ← map_fst_getD ptrs j hj]
          exact getD_lt_of_pairwise _ hsorted _ _ (by omega) (by omega)
        rw [hkeyeq] at hlt2
        exact hlt2
    · intro h
      rw [treeKeys_node_mem]
      exact ⟨node_slot ptrs key, hs, h⟩
  · -- no pointer key matches: the searched key, if present, is under the
    -- child left of the insertion point (slot - 1, clamped at 0)
    obtain ⟨x1, x2, x3, x4⟩ := w3 hr1
    by_cases hz : (generic_bin_search (ptrs.map Prod.fst) key 0 ptrs.length).2 = 0
    · have hslotval : node_slot ptrs key = 0 := by
        unfold node_slot
        rw [if_neg (by omega)]
        exact hz
      have hs : node_slot ptrs key < ptrs.length := by
        rw [hslotval]
        exact hlen0
      refine ⟨hs, ?_⟩
      constructor
      · intro hmem
        exfalso
        rw [treeKeys_node_mem] at hmem
        obtain ⟨j, hj, hjmem⟩ := hmem
        obtain ⟨hb1, _⟩ := hbounds j hj key hjmem
        apply hb1
        have := x4 j (by omega) (by omega)
        rw [map_fst_getD ptrs j hj] at this
        exact this
      · intro h
        rw [treeKeys_node_mem]
        exact ⟨node_slot ptrs key, hs, h⟩
    · have hslotval : node_slot ptrs key
          = (generic_bin_search (ptrs.map Prod.fst) key 0 ptrs.length).2 - 1 := by
        unfold node_slot
        rw [if_pos ⟨by omega, by omega⟩]
      have hs : node_slot ptrs key < ptrs.length := by
        rw [hslotval]
        omega
      refine ⟨hs, ?_⟩
      constructor
      · intro hmem
        rw [treeKeys_node_mem] at hmem
        obtain ⟨j, hj, hjmem⟩ := hmem
        obtain ⟨hb1, hb2⟩ := hbounds j hj key hjmem
        rcases Nat.lt_trichotomy j (node_slot ptrs key) with hjs | hjs | hjs
        · exfalso
          have hj2 : j + 1 < ptrs.length := by omega
          have hkj1 : keyLt key (ptrs.get ⟨j + 1, hj2⟩).1 := hb2 hj2
          have hlt2 : keyLt (ptrs.get ⟨j + 1, hj2⟩).1 key := by
            have := x3 (j + 1) (by omega) (by omega)
            rw [map_fst_getD ptrs (j + 1) hj2] at this
            exact this
          exact keyLt_asymm hkj1 hlt2
        · rw [show (⟨node_slot ptrs key, hs⟩ : Fin ptrs.length) = ⟨j, hj⟩ from
            Fin.mk_eq_mk.mpr hjs.symm]
          exact hjmem
        · exfalso
          apply hb1
          have := x4 j (by omega) (by omega)
          rw [map_fst_getD ptrs j hj] at this
          exact this
      · intro h
        rw [treeKeys_node_mem]
        exact ⟨node_slot ptrs key, hs, h⟩

lemma search_slot_spec_aux : ∀ (n : Nat) (t : btree) (key : btrfs_key),
    sizeOf t ≤ n → wfTree t →
    ∃ ret slots leafKeys,
      btrfs_search_slot t key = Except.ok (ret, slots, leafKeys) ∧
      (ret = 0 ∨ ret = 1) ∧
      (ret = 0 ↔ key ∈ treeKeys t) ∧
      slots ≠ [] ∧
      descend_ok t slots.reverse leafKeys = true ∧
      (ret = 0 → slots.headD 0 < leafKeys.length ∧
        leafKeys.getD (slots.headD 0) dummy_key = key) ∧
      (ret = 1 →
        (∀ i, i < slots.headD 0 → i < leafKeys.length →
          keyLt (leafKeys.getD i dummy_key) key) ∧
        (∀ i, slots.headD 0 ≤ i → i < leafKeys.length →
          keyLt key (leafKeys.getD i dummy_key))) := by
  intro n
  induction n with
  | zero =>
    intro t key hsz _
    exfalso
    cases t <;> simp at hsz
  | succ n ih =>
    intro t key hsz hwf
    cases t with
    | leaf keys =>
      rw [wfTree] at hwf
      obtain ⟨w1, w2, w3⟩ := generic_bin_search_spec keys key keys.length 0
        keys.length (by omega) (by omega) (by omega) hwf (by omega)
        (fun i h1 h2 => absurd h2 (by omega))
      have heq : btrfs_search_slot (.leaf keys) key
          = .ok ((generic_bin_search keys key 0 keys.length).1,
            [(generic_bin_search keys key 0 keys.length).2], keys) := by
        rw [btrfs_search_slot]
      refine ⟨(generic_bin_search keys key 0 keys.length).1,
        [(generic_bin_search keys key 0 keys.length).2], keys, heq, w1, ?_,
        by simp, ?_, ?_, ?_⟩
      · constructor
        · intro h0
          obtain ⟨hl, he⟩ := w2 h0
          rw [treeKeys]
          rw [List.getD_eq_get keys dummy_key hl] at he
          rw [← he]
          exact List.get_mem keys _ hl
        · intro hmem
          rw [treeKeys] at hmem
          rcases w1 with h0 | h1
          · exact h0
          · exfalso
            obtain ⟨x1, x2, x3, x4⟩ := w3 h1
            obtain ⟨⟨i, hi⟩, hg⟩ := List.mem_iff_get.mp hmem
            by_cases hlt : i < (generic_bin_search keys key 0 keys.length).2
            · have := x3 i hlt hi
              rw [List.getD_eq_get keys dummy_key hi, hg] at this
              exact keyLt_irrefl key this
            · have := x4 i (by omega) hi
              rw [List.getD_eq_get keys dummy_key hi, hg] at this
              exact keyLt_irrefl key this
      · have hle : (generic_bin_search keys key 0 keys.length).2
            ≤ keys.length := by
          rcases w1 with h0 | h1
          · exact le_of_lt (w2 h0).1
          · exact (w3 h1).2.1
        have hrev : ([(generic_bin_search keys key 0 keys.length).2]
            : List Nat).reverse
            = [(generic_bin_search keys key 0 keys.length).2] := rfl
        rw [hrev, descend_ok]
        simp [hle]
      · exact fun h0 => ⟨(w2 h0).1, (w2 h0).2⟩
      · exact fun h1 => ⟨fun i hi hil => (w3 h1).2.2.1 i hi hil,
          fun i hi hil => (w3 h1).2.2.2 i hi hil⟩
    | node ptrs =>
      rw [wfTree] at hwf
      obtain ⟨hne, hsorted, hkids, hbounds⟩ := hwf
      obtain ⟨hs, hiff⟩ := node_slot_spec ptrs key hne hsorted hbounds
      have hchild_sz : sizeOf (ptrs.get ⟨node_slot ptrs key, hs⟩).2 ≤ n := by
        have h1 := sizeOf_child_lt ptrs (node_slot ptrs key) hs
        have h2 : sizeOf (btree.node ptrs) ≤ n + 1 := hsz
        omega
      have hchild_wf : wfTree (ptrs.get ⟨node_slot ptrs key, hs⟩).2 :=
        hkids ⟨ptrs.get ⟨node_slot ptrs key, hs⟩,
          List.get_mem ptrs (node_slot ptrs key) hs⟩ (List.mem_attach _ _)
      obtain ⟨ret, cslots, leafKeys, heq, hrv, hmem, hnn, hdo, hex, hins⟩ :=
        ih (ptrs.get ⟨node_slot ptrs key, hs⟩).2 key hchild_sz hchild_wf
      refine ⟨ret, cslots ++ [node_slot ptrs key], leafKeys, ?_, hrv, ?_,
        by simp, ?_, ?_, ?_⟩
      · rw [search_slot_node_eq ptrs key hs, heq]
      · exact Iff.trans hmem hiff.symm
      · have hrev : (cslots ++ [node_slot ptrs key]).reverse
            = node_slot ptrs key :: cslots.reverse := by
          simp
        rw [hrev,
          descend_ok_node ptrs (node_slot ptrs key) cslots.reverse leafKeys hs]
        exact hdo
      · intro h0
        rw [headD_append_singleton cslots (node_slot ptrs key) hnn]
        exact hex h0
      · intro h1
        rw [headD_append_singleton cslots (node_slot ptrs key) hnn]
        exact hins h1

/-- C2: with `ins_len = 0`, `cow = 0`, `lowest_level = 0` on a well-formed
tree whose blocks all read successfully, `btrfs_search_slot` returns 0
when the key exists (with the leaf slot at that key) and 1 otherwise with
the leaf slot at the insertion point (first key greater than the searched
key), and the recorded root-to-leaf descent is valid. -/
theorem C2_search_slot_spec (t : btree) (key : btrfs_key) (hwf : wfTree t) :
    ∃ ret slots leafKeys,
      btrfs_search_slot t key = Except.ok (ret, slots, leafKeys) ∧
      (ret = 0 ∨ ret = 1) ∧
      (ret = 0 ↔ key ∈ treeKeys t) ∧
      slots ≠ [] ∧
      descend_ok t slots.reverse leafKeys = true ∧
      (ret = 0 → slots.headD 0 < leafKeys.length ∧
        leafKeys.getD (slots.headD 0) dummy_key = key) ∧
      (ret = 1 →
        (∀ i, i < slots.headD 0 → i < leafKeys.length →
          keyLt (leafKeys.getD i dummy_key) key) ∧
        (∀ i, slots.headD 0 ≤ i → i < leafKeys.length →
          keyLt key (leafKeys.getD i dummy_key))) :=
  search_slot_spec_aux (sizeOf t) t key (le_refl _) hwf

/-- Witness: the search specification applied to a concrete sorted leaf. -/
theorem C2_search_slot_spec_witness :
    wfTree (btree.leaf [⟨1, 0, 0⟩, ⟨5, 0, 0⟩]) ∧
    (∃ ret slots leafKeys,
      btrfs_search_slot (btree.leaf [⟨1, 0, 0⟩, ⟨5, 0, 0⟩]) ⟨5, 0, 0⟩
        = Except.ok (ret, slots, leafKeys) ∧
      (ret = 0 ∨ ret = 1) ∧
      (ret = 0 ↔ (⟨5, 0, 0⟩ : btrfs_key)
        ∈ treeKeys (btree.leaf [⟨1, 0, 0⟩, ⟨5, 0, 0⟩])) ∧
      slots ≠ [] ∧
      descend_ok (btree.leaf [⟨1, 0, 0⟩, ⟨5, 0, 0⟩]) slots.reverse
        leafKeys = true ∧
      (ret = 0 → slots.headD 0 < leafKeys.length ∧
        leafKeys.getD (slots.headD 0) dummy_key = ⟨5, 0, 0⟩) ∧
      (ret = 1 →
        (∀ i, i < slots.headD 0 → i < leafKeys.length →
          keyLt (leafKeys.getD i dummy_key) ⟨5, 0, 0⟩) ∧
        (∀ i, slots.headD 0 ≤ i → i < leafKeys.length →
          keyLt (⟨5, 0, 0⟩ : btrfs_key) (leafKeys.getD i dummy_key)))) :=
  ⟨by rw [wfTree]; decide,
   C2_search_slot_spec (btree.leaf [⟨1, 0, 0⟩, ⟨5, 0, 0⟩]) ⟨5, 0, 0⟩
     (by rw [wfTree]; decide)⟩

end BtrfsCk
